import Mathlib

/-!
Verification of the WooCombine draft engine (`backend/routes/drafts.py`).

The draft engine is embedded shallowly: documents of the five Firestore
collections used by the routes (`drafts`, `draft_teams`, `draft_picks`,
`coach_rankings`, `team_rosters`) become Lean structures, and every route
handler that mutates draft state becomes a pure function from a
`DraftState` (the slice of the store belonging to one draft) to
`Except DraftError _`.  All raises in the Python handlers occur before the
first write, so a handler either returns an updated state or an error with
the state untouched; this matches the `Except` encoding.

Timestamps are modelled as natural numbers (`now` is passed explicitly);
ISO strings and `datetime` arithmetic become `Nat` addition/comparison.
Document ids produced by `generate_id` (random uuid hex) are passed in as
explicit string arguments.  A Firestore query stream without `order_by`
returns documents ordered by document id; this is modelled by sorting the
collection list with `docIdLe`.
-/

/-- Lexicographic order on character lists, used to model Firestore's
default document-id ordering of query streams. -/
def strLtChars : List Char → List Char → Bool
  | [], [] => false
  | [], _ :: _ => true
  | _ :: _, [] => false
  | a :: as, b :: bs => if a < b then true else if b < a then false else strLtChars as bs

/-- Document-id order (non-strict). -/
def docIdLe (a b : String) : Bool := strLtChars a.data b.data || a == b

/-- Insert into a list sorted by `le`, after all elements that compare `le`
to the inserted one (students of Python: `list.sort` is stable, and this
insertion keeps earlier elements first among equal keys). -/
def insertSorted (le : α → α → Bool) (a : α) : List α → List α
  | [] => [a]
  | x :: xs => if le x a then x :: insertSorted le a xs else a :: x :: xs

/-- Stable insertion sort by a boolean comparison. -/
def sortedBy (le : α → α → Bool) (l : List α) : List α :=
  l.foldl (fun acc x => insertSorted le x acc) []

-- ============================================================================
-- Data model: documents of the collections used by the draft routes
-- ============================================================================

inductive DraftStatus
  | setup
  | active
  | paused
  | completed
deriving DecidableEq, Repr

inductive DraftType
  | snake
  | linear
deriving DecidableEq, Repr

/-- A document of the `drafts` collection (fields consumed by the draft
engine; trade settings and audit fields not read by any handler are
omitted). -/
structure Draft where
  id : String
  event_id : String
  league_id : String
  name : String
  age_group : Option String
  status : DraftStatus
  draft_type : DraftType
  num_teams : Nat
  num_rounds : Option Nat
  pick_timer_seconds : Nat
  auto_pick_on_timeout : Bool
  team_order : List String
  current_round : Nat
  current_pick : Nat
  current_team_id : Option String
  pick_deadline : Option Nat
  started_at : Option Nat
  completed_at : Option Nat
  created_by : String
deriving DecidableEq, Repr

/-- A document of the `draft_teams` collection. -/
structure Team where
  id : String
  draft_id : String
  team_name : String
  coach_user_id : Option String
  coach_name : Option String
  pick_order : Nat
deriving DecidableEq, Repr

/-- A document of the `draft_picks` collection.  `pick_in_round` is an
`Option` because the auto-pick handler writes a pick document without that
key; `make_pick` computes it with Python integer subtraction, hence `Int`. -/
structure Pick where
  id : String
  draft_id : String
  round : Nat
  pick_number : Nat
  pick_in_round : Option Int
  team_id : String
  player_id : String
  picked_by : String
  pick_type : String
  created_at : Nat
deriving DecidableEq, Repr

/-- A document of the `players` collection (fields read by the draft
routes).  The composite score resolved from the document's score fields
(`composite_score` or `scores.composite`, defaulting to 0) is modelled as
a single integer-valued field. -/
structure Player where
  id : String
  event_id : String
  age_group : Option String
  composite_score : Int
deriving DecidableEq, Repr

/-- A document of the `coach_rankings` collection, scoped to one draft. -/
structure CoachRanking where
  coach_user_id : String
  ranked_player_ids : List String
deriving DecidableEq, Repr

/-- A document of the `team_rosters` collection as written by
`_create_team_rosters` (the generated roster id and the constant
`created_from` marker are omitted; note the handler writes no `team_id`). -/
structure Roster where
  draft_id : String
  event_id : String
  league_id : String
  team_name : Option String
  coach_user_id : Option String
  coach_name : Option String
  player_ids : List String
  created_at : Nat
deriving DecidableEq, Repr

/-- The slice of the document store belonging to one draft: the draft
document, its `draft_teams`, its `draft_picks`, its `coach_rankings`, the
`players` of the event, and the `team_rosters` written on completion. -/
structure DraftState where
  draft : Draft
  teams : List Team
  picks : List Pick
  rankings : List CoachRanking
  players : List Player
  rosters : List Roster
deriving DecidableEq, Repr

/-- Error outcomes of the handlers, one constructor per distinct
`HTTPException` raised by the draft routes. -/
inductive DraftError
  | invalidState
  | insufficientTeams
  | permissionDenied
  | playerAlreadyDrafted
  | timerNotExpired
  | autoPickDisabled
  | noPlayersAvailable
  | currentTeamNotFound
  | teamNotFound
  | noPicksToUndo
deriving DecidableEq, Repr

-- ============================================================================
-- PickScheduler: pure turn-order arithmetic
-- ============================================================================

/-- `calculate_snake_order`: team order for a given round of a snake
draft. -/
def calculate_snake_order (team_order : List String) (round_num : Nat) : List String :=
  if round_num % 2 == 1 then team_order else team_order.reverse

/-- `get_pick_team`: which team picks at a given overall pick number. -/
def get_pick_team (d : Draft) (overall_pick : Nat) : Option String :=
  let num_teams := d.team_order.length
  if num_teams == 0 then none
  else
    let round_num := ((overall_pick - 1) / num_teams) + 1
    let pir := (overall_pick - 1) % num_teams
    let order :=
      if d.draft_type == DraftType.snake then calculate_snake_order d.team_order round_num
      else d.team_order
    order[pir]?

-- ============================================================================
-- Player queries shared by the handlers
-- ============================================================================

/-- Does a player match the draft's event and optional age-group filter
(the `players` query of `start_draft`, `auto_pick` and
`get_available_players`)? -/
def matchesDraft (d : Draft) (p : Player) : Bool :=
  p.event_id == d.event_id &&
    (match d.age_group with
     | some ag => p.age_group == some ag
     | none => true)

/-- Eligible players of the draft, in query-stream (document-id) order. -/
def eligiblePlayers (s : DraftState) : List Player :=
  (sortedBy (fun a b => docIdLe a.id b.id) s.players).filter (matchesDraft s.draft)

/-- Ids of eligible players that are not yet drafted, in the order the
auto-pick handler builds `available_ids`. -/
def availableIds (s : DraftState) : List String :=
  ((eligiblePlayers s).map (fun p => p.id)).filter
    (fun pid => !((s.picks.map (fun pk => pk.player_id)).contains pid))

/-- Composite score of a player id (0 when absent), mirroring the score
lookup of the auto-pick fallback sort. -/
def scoreOf (ps : List Player) (pid : String) : Int :=
  match ps.find? (fun p => p.id == pid) with
  | some p => p.composite_score
  | none => 0

/-- Head of the stable descending sort by composite score: the first id in
`avail` attaining the maximal score.  The empty case is unreachable: the
handler raises before reaching the fallback when no player is available. -/
def bestByScore (ps : List Player) : List String → String
  | [] => ""
  | pid :: rest => rest.foldl (fun b q => if scoreOf ps q > scoreOf ps b then q else b) pid

-- ============================================================================
-- RosterAssembler: `_create_team_rosters`
-- ============================================================================

/-- One step of building the `team_players` dict: Python dicts preserve
key-insertion order and the handler appends each `player_id` to its team's
list. -/
def addToGroups (gs : List (String × List String)) (tid pid : String) :
    List (String × List String) :=
  match gs with
  | [] => [(tid, [pid])]
  | (k, ps) :: rest =>
    if k == tid then (k, ps ++ [pid]) :: rest else (k, ps) :: addToGroups rest tid pid

/-- The `team_players` dict of `_create_team_rosters`, built by folding
over the pick stream. -/
def groupPicksByTeam (ordered : List Pick) : List (String × List String) :=
  ordered.foldl (fun gs pk => addToGroups gs pk.team_id pk.player_id) []

/-- Roster document for one `team_players` entry, joined with the team
metadata. -/
def mkRosterFromGroup (teams : List Team) (d : Draft) (now : Nat)
    (g : String × List String) : Roster :=
  let team_data := teams.find? (fun t => t.id == g.1)
  { draft_id := d.id
    event_id := d.event_id
    league_id := d.league_id
    team_name := team_data.map (fun t => t.team_name)
    coach_user_id := team_data.bind (fun t => t.coach_user_id)
    coach_name := team_data.bind (fun t => t.coach_name)
    player_ids := g.2
    created_at := now }

/-- `_create_team_rosters`: group the draft's picks by team and emit one
roster per team.  The picks query has no `order_by`, so the stream arrives
in document-id order. -/
def create_team_rosters (picks : List Pick) (teams : List Team) (d : Draft)
    (now : Nat) : List Roster :=
  let ordered := sortedBy (fun a b => docIdLe a.id b.id) picks
  (groupPicksByTeam ordered).map (mkRosterFromGroup teams d now)

-- ============================================================================
-- Advancing the draft after a recorded pick
-- ============================================================================

/-- The advance-or-complete block that both `make_pick` and `auto_pick`
execute verbatim after writing the pick document. -/
def advance_draft_state (d : Draft) (overall_pick : Nat) (now : Nat) : Draft :=
  let next_pick := overall_pick + 1
  let total_picks := (d.num_rounds.getD 1) * d.num_teams
  if next_pick > total_picks then
    { d with status := DraftStatus.completed
             completed_at := some now
             current_pick := overall_pick
             pick_deadline := none }
  else
    let next_round := ((next_pick - 1) / d.num_teams) + 1
    let next_team_id := get_pick_team d next_pick
    let deadline :=
      if d.pick_timer_seconds > 0 then some (now + d.pick_timer_seconds) else none
    { d with current_round := next_round
             current_pick := next_pick
             current_team_id := next_team_id
             pick_deadline := deadline }

/-- The team bound to `current_team_id`, when it resolves. -/
def currentTeam (s : DraftState) : Option Team :=
  s.draft.current_team_id.bind (fun ctid => s.teams.find? (fun t => t.id == ctid))

-- ============================================================================
-- PickLedger: `make_pick`
-- ============================================================================

/-- `make_pick` (`POST /drafts/{id}/picks`): validate status, turn
permission and player availability, write the pick document and advance
(or complete, writing the rosters). -/
def make_pick (s : DraftState) (player_id uid pickId : String) (now : Nat) :
    Except DraftError (DraftState × Pick) :=
  let d := s.draft
  if d.status ≠ DraftStatus.active then Except.error DraftError.invalidState
  else
    match currentTeam s with
    | none => Except.error DraftError.currentTeamNotFound
    | some team_data =>
      let is_admin := d.created_by == uid
      let is_coach := team_data.coach_user_id == some uid
      if !is_admin && !is_coach then Except.error DraftError.permissionDenied
      else if s.picks.any (fun pk => pk.player_id == player_id) then
        Except.error DraftError.playerAlreadyDrafted
      else
        let current_round := d.current_round
        let num_teams := d.num_teams
        let pir : Int := (d.current_pick : Int) - ((current_round : Int) - 1) * (num_teams : Int)
        let overall_pick := d.current_pick
        let pick : Pick :=
          { id := pickId
            draft_id := d.id
            round := current_round
            pick_number := overall_pick
            pick_in_round := some pir
            team_id := team_data.id
            player_id := player_id
            picked_by := uid
            pick_type := "manual"
            created_at := now }
        let picks' := s.picks ++ [pick]
        let d' := advance_draft_state d overall_pick now
        let rosters' :=
          if d'.status = DraftStatus.completed then
            s.rosters ++ create_team_rosters picks' s.teams d now
          else s.rosters
        Except.ok ({ s with draft := d', picks := picks', rosters := rosters' }, pick)

-- ============================================================================
-- AutoPicker: `auto_pick`
-- ============================================================================

/-- `auto_pick` (`POST /drafts/{id}/picks/auto`): timer-gated automatic
selection for the team on the clock, using the coach's ranking first and
the composite-score fallback otherwise. -/
def auto_pick (s : DraftState) (pickId : String) (now : Nat) :
    Except DraftError (DraftState × Pick) :=
  let d := s.draft
  if d.status ≠ DraftStatus.active then Except.error DraftError.invalidState
  else if !d.auto_pick_on_timeout then Except.error DraftError.autoPickDisabled
  else if (match d.pick_deadline with
           | some deadline => decide (now < deadline)
           | none => false) then Except.error DraftError.timerNotExpired
  else
    match currentTeam s with
    | none => Except.error DraftError.currentTeamNotFound
    | some team_data =>
      let ranked :=
        match team_data.coach_user_id with
        | some c =>
          match s.rankings.find? (fun (rk : CoachRanking) => rk.coach_user_id == c) with
          | some rk => rk.ranked_player_ids
          | none => []
        | none => []
      let avail := availableIds s
      if avail.isEmpty then Except.error DraftError.noPlayersAvailable
      else
        let selected :=
          match ranked.find? (fun pid => avail.contains pid) with
          | some pid => pid
          | none => bestByScore (eligiblePlayers s) avail
        let overall_pick := d.current_pick
        let pick : Pick :=
          { id := pickId
            draft_id := d.id
            round := d.current_round
            pick_number := overall_pick
            pick_in_round := none
            team_id := team_data.id
            player_id := selected
            picked_by := "system"
            pick_type := "auto"
            created_at := now }
        let picks' := s.picks ++ [pick]
        let d' := advance_draft_state d overall_pick now
        let rosters' :=
          if d'.status = DraftStatus.completed then
            s.rosters ++ create_team_rosters picks' s.teams d now
          else s.rosters
        Except.ok ({ s with draft := d', picks := picks', rosters := rosters' }, pick)

-- ============================================================================
-- DraftStateMachine: lifecycle handlers
-- ============================================================================

/-- `start_draft` (`POST /drafts/{id}/start`).  The `uid` of the caller is
received but never consulted. -/
def start_draft (s : DraftState) (uid : String) (now : Nat) :
    Except DraftError DraftState :=
  let d := s.draft
  let _ := uid
  if d.status ≠ DraftStatus.setup then Except.error DraftError.invalidState
  else
    let streamed := sortedBy (fun a b => docIdLe a.id b.id) s.teams
    if streamed.length < 2 then Except.error DraftError.insufficientTeams
    else
      let teams := sortedBy (fun a b => a.pick_order ≤ b.pick_order) streamed
      let team_order := teams.map (fun t => t.id)
      let num_rounds :=
        match d.num_rounds with
        | some r =>
          if r == 0 then max 1 ((eligiblePlayers s).length / teams.length) else r
        | none => max 1 ((eligiblePlayers s).length / teams.length)
      let deadline :=
        if d.pick_timer_seconds > 0 then some (now + d.pick_timer_seconds) else none
      Except.ok { s with draft :=
        { d with status := DraftStatus.active
                 team_order := team_order
                 num_teams := teams.length
                 num_rounds := some num_rounds
                 current_round := 1
                 current_pick := 1
                 current_team_id := team_order.head?
                 pick_deadline := deadline
                 started_at := some now } }

/-- `pause_draft` (`POST /drafts/{id}/pause`). -/
def pause_draft (s : DraftState) (uid : String) : Except DraftError DraftState :=
  let _ := uid
  if s.draft.status ≠ DraftStatus.active then Except.error DraftError.invalidState
  else Except.ok { s with draft :=
    { s.draft with status := DraftStatus.paused, pick_deadline := none } }

/-- `resume_draft` (`POST /drafts/{id}/resume`): recomputes a fresh
full-length deadline. -/
def resume_draft (s : DraftState) (uid : String) (now : Nat) :
    Except DraftError DraftState :=
  let _ := uid
  if s.draft.status ≠ DraftStatus.paused then Except.error DraftError.invalidState
  else
    let deadline :=
      if s.draft.pick_timer_seconds > 0 then some (now + s.draft.pick_timer_seconds)
      else none
    Except.ok { s with draft :=
      { s.draft with status := DraftStatus.active, pick_deadline := deadline } }

-- ============================================================================
-- Undo
-- ============================================================================

/-- The pick returned by `order_by("pick_number", DESCENDING).limit(1)`
together with the collection after deleting that document: the
greatest-`pick_number` element and the list without that occurrence. -/
def removeMaxPick : List Pick → Option (Pick × List Pick)
  | [] => none
  | a :: rest =>
    match removeMaxPick rest with
    | none => some (a, rest)
    | some (m, rest') =>
      if a.pick_number > m.pick_number then some (a, rest) else some (m, a :: rest')

/-- `undo_last_pick` (`POST /drafts/{id}/picks/undo`): creator-only;
deletes the highest-numbered pick and rewinds the pointer fields. -/
def undo_last_pick (s : DraftState) (uid : String) : Except DraftError DraftState :=
  let d := s.draft
  if d.created_by ≠ uid then Except.error DraftError.permissionDenied
  else if ¬(d.status = DraftStatus.active ∨ d.status = DraftStatus.paused) then
    Except.error DraftError.invalidState
  else
    match removeMaxPick s.picks with
    | none => Except.error DraftError.noPicksToUndo
    | some (last_pick, picks') =>
      let reverted_pick := last_pick.pick_number
      let reverted_round := ((reverted_pick - 1) / d.num_teams) + 1
      Except.ok { s with
        picks := picks'
        draft := { d with
          current_round := reverted_round
          current_pick := reverted_pick
          current_team_id := some last_pick.team_id
          status := if d.status = DraftStatus.completed then DraftStatus.active else d.status } }

-- ============================================================================
-- TeamRegistry: setup-phase team management
-- ============================================================================

/-- `add_team` (`POST /drafts/{id}/teams`): setup-only; the new team takes
`pick_order = current_count + 1` and the draft's `num_teams` is bumped. -/
def add_team (s : DraftState) (team_name : String)
    (coach_user_id coach_name : Option String) (teamId : String) :
    Except DraftError (DraftState × Team) :=
  if s.draft.status ≠ DraftStatus.setup then Except.error DraftError.invalidState
  else
    let current_count := s.teams.length
    let team : Team :=
      { id := teamId
        draft_id := s.draft.id
        team_name := team_name
        coach_user_id := coach_user_id
        coach_name := coach_name
        pick_order := current_count + 1 }
    Except.ok ({ s with teams := s.teams ++ [team]
                        draft := { s.draft with num_teams := current_count + 1 } }, team)

/-- `remove_team` (`DELETE /drafts/{id}/teams/{team_id}`): setup-only;
deletes the team document and recounts `num_teams`.  No renumbering of the
surviving teams' `pick_order` happens. -/
def remove_team (s : DraftState) (teamId : String) : Except DraftError DraftState :=
  if s.draft.status ≠ DraftStatus.setup then Except.error DraftError.invalidState
  else if !(s.teams.any (fun t => t.id == teamId)) then Except.error DraftError.teamNotFound
  else
    let teams' := s.teams.filter (fun t => !(t.id == teamId))
    Except.ok { s with teams := teams'
                       draft := { s.draft with num_teams := teams'.length } }

/-- The sequential update loop of `reorder_teams`: each listed team's
document gets `pick_order := position + 1`; an id with no document makes
the Firestore update raise. -/
def applyReorderLoop : List Team → List String → Nat → Except DraftError (List Team)
  | ts, [], _ => Except.ok ts
  | ts, tid :: rest, i =>
    if ts.any (fun t => t.id == tid) then
      applyReorderLoop
        (ts.map (fun t => if t.id == tid then { t with pick_order := i } else t)) rest (i + 1)
    else Except.error DraftError.teamNotFound

/-- `reorder_teams` (`POST /drafts/{id}/teams/reorder`): setup-only;
assigns 1-based `pick_order` along the given id list. -/
def reorder_teams (s : DraftState) (team_ids : List String) :
    Except DraftError DraftState :=
  if s.draft.status ≠ DraftStatus.setup then Except.error DraftError.invalidState
  else
    match applyReorderLoop s.teams team_ids 1 with
    | Except.ok ts' => Except.ok { s with teams := ts' }
    | Except.error e => Except.error e

-- ============================================================================
-- Draft creation and reachability
-- ============================================================================

/-- The draft document written by `create_draft`. -/
def initial_draft (id event_id league_id name : String) (age_group : Option String)
    (draft_type : DraftType) (num_rounds : Option Nat) (pick_timer_seconds : Nat)
    (auto_pick_on_timeout : Bool) (created_by : String) : Draft :=
  { id := id
    event_id := event_id
    league_id := league_id
    name := name
    age_group := age_group
    status := DraftStatus.setup
    draft_type := draft_type
    num_teams := 0
    num_rounds := num_rounds
    pick_timer_seconds := pick_timer_seconds
    auto_pick_on_timeout := auto_pick_on_timeout
    team_order := []
    current_round := 0
    current_pick := 0
    current_team_id := none
    pick_deadline := none
    started_at := none
    completed_at := none
    created_by := created_by }

/-- Draft states reachable through the handlers.  `setup_edit`
over-approximates every setup-phase mutation (team create/update/delete,
team reorder including a partially applied loop, and `update_draft`): all
of them leave the pick ledger alone and keep the draft in `setup` with its
id fixed.  `external` lets the collaborator-owned collections (`players`,
`coach_rankings`) change at any time. -/
inductive Reach : DraftState → Prop where
  | init (d : Draft) (ps : List Player) :
      d.status = DraftStatus.setup →
      d.current_pick = 0 →
      Reach { draft := d, teams := [], picks := [], rankings := [], players := ps, rosters := [] }
  | setup_edit {s : DraftState} (t' : List Team) (d' : Draft) :
      Reach s → s.draft.status = DraftStatus.setup →
      d'.status = DraftStatus.setup → d'.id = s.draft.id →
      Reach { s with teams := t', draft := d' }
  | external {s : DraftState} (ps : List Player) (rks : List CoachRanking) :
      Reach s → Reach { s with players := ps, rankings := rks }
  | start {s s' : DraftState} (uid : String) (now : Nat) :
      Reach s → start_draft s uid now = Except.ok s' → Reach s'
  | pause {s s' : DraftState} (uid : String) :
      Reach s → pause_draft s uid = Except.ok s' → Reach s'
  | resume {s s' : DraftState} (uid : String) (now : Nat) :
      Reach s → resume_draft s uid now = Except.ok s' → Reach s'
  | pick {s s' : DraftState} (pid uid pickId : String) (now : Nat) (pk : Pick) :
      Reach s → make_pick s pid uid pickId now = Except.ok (s', pk) → Reach s'
  | auto {s s' : DraftState} (pickId : String) (now : Nat) (pk : Pick) :
      Reach s → auto_pick s pickId now = Except.ok (s', pk) → Reach s'
  | undo {s s' : DraftState} (uid : String) :
      Reach s → undo_last_pick s uid = Except.ok s' → Reach s'

deriving instance DecidableEq for Except

-- ============================================================================
-- General lemmas about the list helpers
-- ============================================================================

theorem insertSorted_perm (le : α → α → Bool) (a : α) (l : List α) :
    List.Perm (insertSorted le a l) (a :: l) := by
  induction l with
  | nil => simp [insertSorted]
  | cons x xs ih =>
    simp only [insertSorted]
    by_cases h : le x a = true
    · simp only [h, if_true]
      exact List.Perm.trans (List.Perm.cons x ih) (List.Perm.swap a x xs)
    · simp [h]

theorem sortedBy_foldl_perm (le : α → α → Bool) (l acc : List α) :
    List.Perm (l.foldl (fun acc x => insertSorted le x acc) acc) (acc ++ l) := by
  induction l generalizing acc with
  | nil => simp
  | cons x xs ih =>
    simp only [List.foldl_cons]
    refine List.Perm.trans (ih (insertSorted le x acc)) ?_
    have h1 : List.Perm (insertSorted le x acc ++ xs) ((x :: acc) ++ xs) :=
      List.Perm.append_right xs (insertSorted_perm le x acc)
    exact List.Perm.trans h1 List.perm_middle.symm

theorem sortedBy_perm (le : α → α → Bool) (l : List α) :
    List.Perm (sortedBy le l) l := by
  simpa [sortedBy] using sortedBy_foldl_perm le l []

theorem sortedBy_length (le : α → α → Bool) (l : List α) :
    (sortedBy le l).length = l.length :=
  (sortedBy_perm le l).length_eq

theorem sortedBy_mem (le : α → α → Bool) (l : List α) (a : α) :
    a ∈ sortedBy le l ↔ a ∈ l :=
  (sortedBy_perm le l).mem_iff

theorem insertSorted_pairwise (le : α → α → Bool)
    (htot : ∀ a b, le a b = true ∨ le b a = true)
    (htrans : ∀ a b c, le a b = true → le b c = true → le a c = true)
    (a : α) (l : List α) (hl : l.Pairwise (fun x y => le x y = true)) :
    (insertSorted le a l).Pairwise (fun x y => le x y = true) := by
  induction l with
  | nil => simp [insertSorted]
  | cons x xs ih =>
    obtain ⟨hx, hxs⟩ := List.pairwise_cons.mp hl
    simp only [insertSorted]
    by_cases h : le x a = true
    · simp only [h, if_true]
      refine List.pairwise_cons.mpr ⟨?_, ih hxs⟩
      intro b hb
      rcases List.mem_cons.mp ((insertSorted_perm le a xs).mem_iff.mp hb) with hb | hb
      · subst hb; exact h
      · exact hx b hb
    · have hax : le a x = true := (htot a x).resolve_right (by simpa using h)
      simp only [h, if_false]
      refine List.pairwise_cons.mpr ⟨?_, hl⟩
      intro b hb
      rcases List.mem_cons.mp hb with hb | hb
      · subst hb; exact hax
      · exact htrans a x b hax (hx b hb)

theorem sortedBy_pairwise (le : α → α → Bool)
    (htot : ∀ a b, le a b = true ∨ le b a = true)
    (htrans : ∀ a b c, le a b = true → le b c = true → le a c = true)
    (l : List α) :
    (sortedBy le l).Pairwise (fun x y => le x y = true) := by
  have haux : ∀ (m acc : List α), acc.Pairwise (fun x y => le x y = true) →
      (m.foldl (fun acc x => insertSorted le x acc) acc).Pairwise
        (fun x y => le x y = true) := by
    intro m
    induction m with
    | nil => intro acc hacc; simpa using hacc
    | cons x xs ih =>
      intro acc hacc
      simp only [List.foldl_cons]
      exact ih (insertSorted le x acc) (insertSorted_pairwise le htot htrans x acc hacc)
  exact haux l [] (by simp)

theorem removeMaxPick_append_last (q : List Pick) (a : Pick)
    (h : ∀ x ∈ q, x.pick_number < a.pick_number) :
    removeMaxPick (q ++ [a]) = some (a, q) := by
  induction q with
  | nil => simp [removeMaxPick]
  | cons x xs ih =>
    have hx : x.pick_number < a.pick_number := h x (by simp)
    have ihq : removeMaxPick (xs ++ [a]) = some (a, xs) :=
      ih (fun y hy => h y (by simp [hy]))
    have hnot : ¬ (x.pick_number > a.pick_number) := by omega
    simp only [List.cons_append, removeMaxPick, List.append_eq, ihq]
    rw [if_neg hnot]

theorem numbered_decomp (l : List Pick) (n : Nat)
    (h : l.map (fun pk => pk.pick_number) = List.range' 1 (n + 1)) :
    ∃ q a, l = q ++ [a] ∧ q.map (fun pk => pk.pick_number) = List.range' 1 n ∧
      a.pick_number = n + 1 := by
  have hlen : l.length = n + 1 := by
    have := congrArg List.length h
    simpa using this
  have hne : l ≠ [] := by
    intro hfalse; rw [hfalse] at hlen; simp at hlen
  have hsplit : l.dropLast ++ [l.getLast hne] = l := List.dropLast_append_getLast hne
  have hmap : l.dropLast.map (fun pk => pk.pick_number) ++
      [(l.getLast hne).pick_number] = List.range' 1 n ++ [1 + n] := by
    have hh : (l.dropLast ++ [l.getLast hne]).map (fun pk => pk.pick_number) =
        List.range' 1 (n + 1) := by rw [hsplit]; exact h
    simpa [List.range'_concat] using hh
  have hlen2 : (l.dropLast.map (fun pk => pk.pick_number)).length =
      (List.range' 1 n).length := by
    simp [List.length_dropLast, hlen]
  have hinj := List.append_inj hmap hlen2
  have hlast : (l.getLast hne).pick_number = n + 1 := by
    have := hinj.2
    simp at this
    omega
  exact ⟨l.dropLast, l.getLast hne, hsplit.symm, hinj.1, hlast⟩

-- ============================================================================
-- Inversion lemmas for the handlers
-- ============================================================================

theorem make_pick_ok_inv {s s' : DraftState} {p u pid : String} {now : Nat} {pk : Pick}
    (h : make_pick s p u pid now = Except.ok (s', pk)) :
    s.draft.status = DraftStatus.active ∧
    ∃ td, currentTeam s = some td ∧
      ((s.draft.created_by == u) || (td.coach_user_id == some u)) = true ∧
      s.picks.any (fun q => q.player_id == p) = false ∧
      pk.pick_number = s.draft.current_pick ∧ pk.player_id = p ∧
      pk.pick_in_round = some ((s.draft.current_pick : Int) -
        ((s.draft.current_round : Int) - 1) * (s.draft.num_teams : Int)) ∧
      s'.picks = s.picks ++ [pk] ∧
      s'.draft = advance_draft_state s.draft s.draft.current_pick now := by
  simp only [make_pick] at h
  split at h
  · cases h
  next hst =>
    split at h
    · cases h
    next td heq =>
      split at h
      · cases h
      next hperm =>
        split at h
        · cases h
        next hdup =>
          injection h with hpair
          injection hpair with hs' hpk
          subst hs'
          subst hpk
          refine ⟨not_ne_iff.mp hst, td, heq, ?_, by simpa using hdup, rfl, rfl, rfl,
            rfl, rfl⟩
          cases hb : (s.draft.created_by == u) <;>
            cases hc : (td.coach_user_id == some u) <;> simp_all

theorem make_pick_err_inv {s : DraftState} {p u pid : String} {now : Nat}
    {e : DraftError} (h : make_pick s p u pid now = Except.error e) :
    (e = DraftError.invalidState ∧ s.draft.status ≠ DraftStatus.active) ∨
    (e = DraftError.currentTeamNotFound ∧ s.draft.status = DraftStatus.active ∧
      currentTeam s = none) ∨
    (e = DraftError.permissionDenied ∧ s.draft.status = DraftStatus.active ∧
      ∃ td, currentTeam s = some td ∧
        ((s.draft.created_by == u) || (td.coach_user_id == some u)) = false) ∨
    (e = DraftError.playerAlreadyDrafted ∧ s.draft.status = DraftStatus.active ∧
      (∃ td, currentTeam s = some td ∧
        ((s.draft.created_by == u) || (td.coach_user_id == some u)) = true) ∧
      s.picks.any (fun q => q.player_id == p) = true) := by
  simp only [make_pick] at h
  split at h
  next hst =>
    injection h with he
    exact Or.inl ⟨he.symm, hst⟩
  next hst =>
    have hact : s.draft.status = DraftStatus.active := not_ne_iff.mp hst
    split at h
    next heq =>
      injection h with he
      exact Or.inr (Or.inl ⟨he.symm, hact, heq⟩)
    next td heq =>
      split at h
      next hperm =>
        injection h with he
        refine Or.inr (Or.inr (Or.inl ⟨he.symm, hact, td, heq, ?_⟩))
        cases hb : (s.draft.created_by == u) <;>
          cases hc : (td.coach_user_id == some u) <;> simp_all
      next hperm =>
        split at h
        next hdup =>
          injection h with he
          refine Or.inr (Or.inr (Or.inr ⟨he.symm, hact, ⟨td, heq, ?_⟩, by simpa using hdup⟩))
          cases hb : (s.draft.created_by == u) <;>
            cases hc : (td.coach_user_id == some u) <;> simp_all
        next hdup => cases h

theorem auto_pick_ok_inv {s s' : DraftState} {pid : String} {now : Nat} {pk : Pick}
    (h : auto_pick s pid now = Except.ok (s', pk)) :
    s.draft.status = DraftStatus.active ∧
    s.draft.auto_pick_on_timeout = true ∧
    (match s.draft.pick_deadline with
     | some deadline => decide (now < deadline)
     | none => false) = false ∧
    ∃ td, currentTeam s = some td ∧
      availableIds s ≠ [] ∧
      pk.pick_number = s.draft.current_pick ∧
      pk.player_id ∈ availableIds s ∧
      pk.pick_in_round = none ∧
      pk.pick_type = "auto" ∧
      s'.picks = s.picks ++ [pk] ∧
      s'.draft = advance_draft_state s.draft s.draft.current_pick now := by
  simp only [auto_pick] at h
  split at h
  · cases h
  next hst =>
    split at h
    · cases h
    next hflag =>
      split at h
      · cases h
      next hdl =>
        split at h
        · cases h
        next td heq =>
          split at h
          · cases h
          next hav =>
            injection h with hpair
            injection hpair with hs' hpk
            subst hs'
            subst hpk
            refine ⟨not_ne_iff.mp hst, by simpa using hflag, by simpa using hdl,
              td, heq, by simpa [List.isEmpty_iff] using hav, rfl, ?_, rfl, rfl, rfl, rfl⟩
            have havne : availableIds s ≠ [] := by simpa [List.isEmpty_iff] using hav
            split
            next pid2 hfind =>
              have hcont := List.find?_some hfind
              exact List.mem_of_elem_eq_true (by simpa using hcont)
            next hfind =>
              cases hcase : availableIds s with
              | nil => exact absurd hcase havne
              | cons x rest =>
                have hmem : bestByScore (eligiblePlayers s) (x :: rest) ∈ x :: rest := by
                  simp only [bestByScore]
                  have haux : ∀ (l : List String) (b : String), b ∈ x :: rest →
                      (∀ y ∈ l, y ∈ x :: rest) →
                      l.foldl (fun b q =>
                        if scoreOf (eligiblePlayers s) q > scoreOf (eligiblePlayers s) b
                        then q else b) b ∈ x :: rest := by
                    intro l
                    induction l with
                    | nil => intro b hb _; simpa using hb
                    | cons y ys ih =>
                      intro b hb hsub
                      simp only [List.foldl_cons]
                      by_cases hc : scoreOf (eligiblePlayers s) y >
                          scoreOf (eligiblePlayers s) b
                      · rw [if_pos hc]
                        exact ih y (hsub y (by simp)) (fun z hz => hsub z (by simp [hz]))
                      · rw [if_neg hc]
                        exact ih b hb (fun z hz => hsub z (by simp [hz]))
                  exact haux rest x (by simp) (fun z hz => by simp [hz])
                simpa using hmem

theorem auto_pick_err_timer {s : DraftState} {pid : String} {now : Nat}
    (hst : s.draft.status = DraftStatus.active)
    (hflag : s.draft.auto_pick_on_timeout = true)
    {deadline : Nat} (hdl : s.draft.pick_deadline = some deadline) (hlt : now < deadline) :
    auto_pick s pid now = Except.error DraftError.timerNotExpired := by
  simp only [auto_pick]
  rw [if_neg (by simp [hst])]
  rw [if_neg (by simp [hflag])]
  rw [if_pos (by simp [hdl, hlt])]

theorem auto_pick_err_inv {s : DraftState} {pid : String} {now : Nat}
    {e : DraftError} (h : auto_pick s pid now = Except.error e) :
    (e = DraftError.invalidState ∧ s.draft.status ≠ DraftStatus.active) ∨
    (e = DraftError.autoPickDisabled ∧ s.draft.auto_pick_on_timeout = false) ∨
    (e = DraftError.timerNotExpired ∧
      (match s.draft.pick_deadline with
       | some deadline => decide (now < deadline)
       | none => false) = true) ∨
    (e = DraftError.currentTeamNotFound ∧ currentTeam s = none) ∨
    (e = DraftError.noPlayersAvailable ∧ availableIds s = []) := by
  simp only [auto_pick] at h
  split at h
  next hst =>
    injection h with he
    exact Or.inl ⟨he.symm, hst⟩
  next hst =>
    split at h
    next hflag =>
      injection h with he
      exact Or.inr (Or.inl ⟨he.symm, by simpa using hflag⟩)
    next hflag =>
      split at h
      next hgate =>
        injection h with he
        exact Or.inr (Or.inr (Or.inl ⟨he.symm, hgate⟩))
      next hgate =>
        split at h
        next heq =>
          injection h with he
          exact Or.inr (Or.inr (Or.inr (Or.inl ⟨he.symm, heq⟩)))
        next td heq =>
          split at h
          next hav =>
            injection h with he
            exact Or.inr (Or.inr (Or.inr (Or.inr ⟨he.symm, by
              simpa [List.isEmpty_iff] using hav⟩)))
          next hav => cases h

theorem start_ok_inv {s s' : DraftState} {u : String} {now : Nat}
    (h : start_draft s u now = Except.ok s') :
    s.draft.status = DraftStatus.setup ∧ 2 ≤ s.teams.length ∧
    s'.teams = s.teams ∧ s'.picks = s.picks ∧ s'.rosters = s.rosters ∧
    s'.draft = { s.draft with
      status := DraftStatus.active
      team_order := (sortedBy (fun a b => a.pick_order ≤ b.pick_order)
        (sortedBy (fun a b => docIdLe a.id b.id) s.teams)).map (fun t => t.id)
      num_teams := (sortedBy (fun a b => a.pick_order ≤ b.pick_order)
        (sortedBy (fun a b => docIdLe a.id b.id) s.teams)).length
      num_rounds := some (match s.draft.num_rounds with
        | some r => if r == 0 then
            max 1 ((eligiblePlayers s).length /
              (sortedBy (fun a b => a.pick_order ≤ b.pick_order)
                (sortedBy (fun a b => docIdLe a.id b.id) s.teams)).length)
          else r
        | none =>
            max 1 ((eligiblePlayers s).length /
              (sortedBy (fun a b => a.pick_order ≤ b.pick_order)
                (sortedBy (fun a b => docIdLe a.id b.id) s.teams)).length))
      current_round := 1
      current_pick := 1
      current_team_id := ((sortedBy (fun a b => a.pick_order ≤ b.pick_order)
        (sortedBy (fun a b => docIdLe a.id b.id) s.teams)).map (fun t => t.id)).head?
      pick_deadline := if s.draft.pick_timer_seconds > 0
        then some (now + s.draft.pick_timer_seconds) else none
      started_at := some now } := by
  simp only [start_draft] at h
  split at h
  · cases h
  next hst =>
    split at h
    · cases h
    next hlen =>
      injection h with hs'
      subst hs'
      refine ⟨not_ne_iff.mp hst, ?_, rfl, rfl, rfl, rfl⟩
      have := sortedBy_length (fun (a b : Team) => docIdLe a.id b.id) s.teams
      omega

theorem start_err_inv {s : DraftState} {u : String} {now : Nat} {e : DraftError}
    (h : start_draft s u now = Except.error e) :
    (e = DraftError.invalidState ∧ s.draft.status ≠ DraftStatus.setup) ∨
    (e = DraftError.insufficientTeams ∧ s.draft.status = DraftStatus.setup ∧
      s.teams.length < 2) := by
  simp only [start_draft] at h
  split at h
  next hst =>
    injection h with he
    exact Or.inl ⟨he.symm, hst⟩
  next hst =>
    split at h
    next hlen =>
      injection h with he
      refine Or.inr ⟨he.symm, not_ne_iff.mp hst, ?_⟩
      have := sortedBy_length (fun (a b : Team) => docIdLe a.id b.id) s.teams
      omega
    next hlen => cases h

theorem pause_ok_inv {s s' : DraftState} {u : String}
    (h : pause_draft s u = Except.ok s') :
    s.draft.status = DraftStatus.active ∧
    s' = { s with draft :=
      { s.draft with status := DraftStatus.paused, pick_deadline := none } } := by
  simp only [pause_draft] at h
  split at h
  · cases h
  next hst =>
    injection h with hs'
    exact ⟨not_ne_iff.mp hst, hs'.symm⟩

theorem pause_err_inv {s : DraftState} {u : String} {e : DraftError}
    (h : pause_draft s u = Except.error e) :
    e = DraftError.invalidState ∧ s.draft.status ≠ DraftStatus.active := by
  simp only [pause_draft] at h
  split at h
  next hst =>
    injection h with he
    exact ⟨he.symm, hst⟩
  next hst => cases h

theorem resume_ok_inv {s s' : DraftState} {u : String} {now : Nat}
    (h : resume_draft s u now = Except.ok s') :
    s.draft.status = DraftStatus.paused ∧
    s' = { s with draft :=
      { s.draft with status := DraftStatus.active
                     pick_deadline := if s.draft.pick_timer_seconds > 0
                       then some (now + s.draft.pick_timer_seconds) else none } } := by
  simp only [resume_draft] at h
  split at h
  · cases h
  next hst =>
    injection h with hs'
    exact ⟨not_ne_iff.mp hst, hs'.symm⟩

theorem resume_err_inv {s : DraftState} {u : String} {now : Nat} {e : DraftError}
    (h : resume_draft s u now = Except.error e) :
    e = DraftError.invalidState ∧ s.draft.status ≠ DraftStatus.paused := by
  simp only [resume_draft] at h
  split at h
  next hst =>
    injection h with he
    exact ⟨he.symm, hst⟩
  next hst => cases h

theorem undo_ok_inv {s s' : DraftState} {u : String}
    (h : undo_last_pick s u = Except.ok s') :
    s.draft.created_by = u ∧
    (s.draft.status = DraftStatus.active ∨ s.draft.status = DraftStatus.paused) ∧
    ∃ lp picks', removeMaxPick s.picks = some (lp, picks') ∧
      s' = { s with picks := picks'
                    draft := { s.draft with
                      current_round := ((lp.pick_number - 1) / s.draft.num_teams) + 1
                      current_pick := lp.pick_number
                      current_team_id := some lp.team_id
                      status := if s.draft.status = DraftStatus.completed
                        then DraftStatus.active else s.draft.status } } := by
  simp only [undo_last_pick] at h
  split at h
  · cases h
  next hcb =>
    split at h
    · cases h
    next hlive =>
      split at h
      · cases h
      next lp picks' hrm =>
        injection h with hs'
        exact ⟨not_ne_iff.mp hcb, not_not.mp hlive, lp, picks', hrm, hs'.symm⟩

theorem undo_err_inv {s : DraftState} {u : String} {e : DraftError}
    (h : undo_last_pick s u = Except.error e) :
    (e = DraftError.permissionDenied ∧ s.draft.created_by ≠ u) ∨
    (e = DraftError.invalidState ∧ s.draft.created_by = u ∧
      ¬(s.draft.status = DraftStatus.active ∨ s.draft.status = DraftStatus.paused)) ∨
    (e = DraftError.noPicksToUndo ∧ s.draft.created_by = u ∧
      (s.draft.status = DraftStatus.active ∨ s.draft.status = DraftStatus.paused) ∧
      s.picks = []) := by
  simp only [undo_last_pick] at h
  split at h
  next hcb =>
    injection h with he
    exact Or.inl ⟨he.symm, hcb⟩
  next hcb =>
    split at h
    next hlive =>
      injection h with he
      exact Or.inr (Or.inl ⟨he.symm, not_ne_iff.mp hcb, hlive⟩)
    next hlive =>
      split at h
      next hrm =>
        injection h with he
        refine Or.inr (Or.inr ⟨he.symm, not_ne_iff.mp hcb, not_not.mp hlive, ?_⟩)
        cases hp : s.picks with
        | nil => rfl
        | cons x xs =>
          rw [hp] at hrm
          simp only [removeMaxPick] at hrm
          revert hrm
          split <;> intro hrm
          · cases hrm
          · split at hrm <;> cases hrm
      next lp picks' hrm => cases h

-- ============================================================================
-- Case analysis of the advance-or-complete block
-- ============================================================================

theorem advance_complete (d : Draft) (op now : Nat)
    (h : (d.num_rounds.getD 1) * d.num_teams < op + 1) :
    advance_draft_state d op now = { d with
      status := DraftStatus.completed
      completed_at := some now
      current_pick := op
      pick_deadline := none } := by
  simp only [advance_draft_state]
  rw [if_pos (by omega)]

theorem advance_next (d : Draft) (op now : Nat)
    (h : op + 1 ≤ (d.num_rounds.getD 1) * d.num_teams) :
    advance_draft_state d op now = { d with
      current_round := ((op + 1 - 1) / d.num_teams) + 1
      current_pick := op + 1
      current_team_id := get_pick_team d (op + 1)
      pick_deadline := if d.pick_timer_seconds > 0
        then some (now + d.pick_timer_seconds) else none } := by
  simp only [advance_draft_state]
  rw [if_neg (by omega)]

theorem not_drafted_of_any_false {l : List Pick} {p : String}
    (h : l.any (fun q => q.player_id == p) = false) :
    p ∉ l.map (fun q => q.player_id) := by
  intro hmem
  rcases List.mem_map.mp hmem with ⟨q, hq, hqp⟩
  have hall := List.any_eq_false.mp h q hq
  simp [hqp] at hall

theorem mem_available_not_drafted {s : DraftState} {pid : String}
    (h : pid ∈ availableIds s) : pid ∉ s.picks.map (fun pk => pk.player_id) := by
  simp only [availableIds, List.mem_filter] at h
  intro hmem
  have hc := h.2
  simp only [Bool.not_eq_true'] at hc
  have : (s.picks.map (fun pk => pk.player_id)).contains pid = true := by
    simpa using List.elem_eq_true_of_mem hmem
  rw [this] at hc
  cases hc

-- ============================================================================
-- The reachable-state invariant
-- ============================================================================

/-- Invariant over reachable draft states: the pick ledger carries distinct
players and consecutive pick numbers starting at 1, the pointer fields
track the ledger while the draft is live, and a completed draft has filled
every slot. -/
structure DraftInv (s : DraftState) : Prop where
  players_nodup : (s.picks.map (fun pk => pk.player_id)).Nodup
  numbered : s.picks.map (fun pk => pk.pick_number) = List.range' 1 s.picks.length
  setup_empty : s.draft.status = DraftStatus.setup → s.picks = []
  live_ptr : s.draft.status = DraftStatus.active ∨ s.draft.status = DraftStatus.paused →
    s.draft.current_pick = s.picks.length + 1
  live_cfg : s.draft.status = DraftStatus.active ∨ s.draft.status = DraftStatus.paused →
    ∃ r, s.draft.num_rounds = some r ∧ 1 ≤ r ∧ 2 ≤ s.draft.num_teams ∧
      s.draft.current_pick ≤ r * s.draft.num_teams
  done_ptr : s.draft.status = DraftStatus.completed →
    ∃ r, s.draft.num_rounds = some r ∧ s.draft.current_pick = r * s.draft.num_teams ∧
      s.picks.length = r * s.draft.num_teams

theorem inv_of_empty_setup {s : DraftState} (hst : s.draft.status = DraftStatus.setup)
    (hpk : s.picks = []) : DraftInv s := by
  refine ⟨?_, ?_, fun _ => hpk, ?_, ?_, ?_⟩
  · rw [hpk]; simp
  · rw [hpk]; simp
  · intro hcontr; rw [hst] at hcontr; rcases hcontr with h | h <;> cases h
  · intro hcontr; rw [hst] at hcontr; rcases hcontr with h | h <;> cases h
  · intro hcontr; rw [hst] at hcontr; cases hcontr

theorem inv_after_pick {s s' : DraftState} {pk : Pick}
    (inv : DraftInv s)
    (hst : s.draft.status = DraftStatus.active)
    (hnum : pk.pick_number = s.draft.current_pick)
    (hnodup : pk.player_id ∉ s.picks.map (fun q => q.player_id))
    (hpicks : s'.picks = s.picks ++ [pk])
    (hdraft : s'.draft = advance_draft_state s.draft s.draft.current_pick now)
    : DraftInv s' := by
  obtain ⟨r, hr, hr1, hnt, hbound⟩ := inv.live_cfg (Or.inl hst)
  have hcp : s.draft.current_pick = s.picks.length + 1 := inv.live_ptr (Or.inl hst)
  have hgetd : s.draft.num_rounds.getD 1 = r := by rw [hr]; rfl
  have hnodup' : (s'.picks.map (fun q => q.player_id)).Nodup := by
    rw [hpicks]
    simp only [List.map_append, List.map_cons, List.map_nil]
    rw [List.nodup_append]
    exact ⟨inv.players_nodup, by simp, by simpa [List.disjoint_singleton] using hnodup⟩
  have hnumbered' : s'.picks.map (fun q => q.pick_number) =
      List.range' 1 s'.picks.length := by
    rw [hpicks]
    simp only [List.map_append, List.map_cons, List.map_nil, List.length_append,
      List.length_cons, List.length_nil]
    rw [inv.numbered, hnum, hcp, List.range'_concat]
    simp [Nat.add_comm]
  by_cases hcomp : r * s.draft.num_teams < s.draft.current_pick + 1
  · have hadv := advance_complete s.draft s.draft.current_pick now (by rw [hgetd]; omega)
    have heq : s.draft.current_pick = r * s.draft.num_teams := by omega
    refine ⟨hnodup', hnumbered', ?_, ?_, ?_, ?_⟩
    · intro hsetup; rw [hdraft, hadv] at hsetup; cases hsetup
    · intro hcontr; rw [hdraft, hadv] at hcontr; rcases hcontr with h | h <;> cases h
    · intro hcontr; rw [hdraft, hadv] at hcontr; rcases hcontr with h | h <;> cases h
    · intro _
      refine ⟨r, ?_, ?_, ?_⟩
      · rw [hdraft, hadv]; exact hr
      · rw [hdraft, hadv]; simpa using heq
      · rw [hpicks, hdraft, hadv]
        simp only [List.length_append, List.length_cons, List.length_nil]
        omega
  · have hadv := advance_next s.draft s.draft.current_pick now (by rw [hgetd]; omega)
    refine ⟨hnodup', hnumbered', ?_, ?_, ?_, ?_⟩
    · intro hsetup
      rw [hdraft, hadv] at hsetup
      simp only at hsetup
      rw [hsetup] at hst; cases hst
    · intro _
      rw [hdraft, hadv, hpicks]
      simp only [List.length_append, List.length_cons, List.length_nil]
      omega
    · intro _
      refine ⟨r, ?_, hr1, ?_, ?_⟩
      · rw [hdraft, hadv]; exact hr
      · rw [hdraft, hadv]; exact hnt
      · rw [hdraft, hadv]; simpa using (by omega :
          s.draft.current_pick + 1 ≤ r * s.draft.num_teams)
    · intro hcontr
      rw [hdraft, hadv] at hcontr
      simp only at hcontr
      rw [hcontr] at hst; cases hst

theorem removeMaxPick_of_numbered {l : List Pick} {m : Nat}
    (h : l.map (fun pk => pk.pick_number) = List.range' 1 (m + 1)) :
    ∃ q a, l = q ++ [a] ∧ q.map (fun pk => pk.pick_number) = List.range' 1 m ∧
      a.pick_number = m + 1 ∧ removeMaxPick l = some (a, q) := by
  obtain ⟨q, a, hl, hq, ha⟩ := numbered_decomp l m h
  refine ⟨q, a, hl, hq, ha, ?_⟩
  rw [hl]
  refine removeMaxPick_append_last q a ?_
  intro x hx
  have hmem : x.pick_number ∈ List.range' 1 m := by
    rw [← hq]; exact List.mem_map_of_mem _ hx
  have := List.mem_range'_1.mp hmem
  omega

theorem inv_after_undo {s s' : DraftState} {u : String}
    (inv : DraftInv s) (h : undo_last_pick s u = Except.ok s') : DraftInv s' := by
  obtain ⟨hcb, hlive, lp, picks', hrm, hs'⟩ := undo_ok_inv h
  have hcp : s.draft.current_pick = s.picks.length + 1 := inv.live_ptr hlive
  obtain ⟨r, hr, hr1, hnt, hbound⟩ := inv.live_cfg hlive
  have hne : s.picks ≠ [] := by
    intro hnil
    rw [hnil] at hrm
    cases hrm
  obtain ⟨m, hm⟩ : ∃ m, s.picks.length = m + 1 := by
    cases hlen : s.picks.length with
    | zero => exact absurd (List.length_eq_zero.mp hlen) hne
    | succ m => exact ⟨m, rfl⟩
  have hnumbered := inv.numbered
  rw [hm] at hnumbered
  obtain ⟨q, a, hl, hq, ha, hrm2⟩ := removeMaxPick_of_numbered hnumbered
  rw [hrm2] at hrm
  injection hrm with hpair
  injection hpair with hlp hpicks'
  subst hlp
  subst hpicks'
  have hnotdone : ¬ s.draft.status = DraftStatus.completed := by
    rcases hlive with h1 | h1 <;> rw [h1] <;> intro hc <;> cases hc
  have hqlen : q.length = m := by
    have := congrArg List.length hq
    simpa using this
  have hstat : s'.draft.status = s.draft.status := by
    rw [hs']
    simp [if_neg hnotdone]
  refine ⟨?_, ?_, ?_, ?_, ?_, ?_⟩
  · have hsub : (q.map (fun pk => pk.player_id)).Sublist
        (s.picks.map (fun pk => pk.player_id)) := by
      rw [hl, List.map_append]
      exact List.sublist_append_left _ _
    have hpicks : s'.picks = q := by rw [hs']
    rw [hpicks]
    exact hsub.nodup inv.players_nodup
  · have hpicks : s'.picks = q := by rw [hs']
    rw [hpicks, hqlen, hq]
  · intro hsetup
    rw [hstat] at hsetup
    rcases hlive with h1 | h1 <;> rw [h1] at hsetup <;> cases hsetup
  · intro _
    have hpicks : s'.picks = q := by rw [hs']
    have hcp' : s'.draft.current_pick = a.pick_number := by rw [hs']
    rw [hpicks, hcp', ha, hqlen]
  · intro _
    refine ⟨r, ?_, hr1, ?_, ?_⟩
    · rw [hs']; exact hr
    · rw [hs']; exact hnt
    · have hcp' : s'.draft.current_pick = a.pick_number := by rw [hs']
      have hnt' : s'.draft.num_teams = s.draft.num_teams := by rw [hs']
      rw [hcp', ha, hnt']
      rw [hm] at hcp
      omega
  · intro hdone
    rw [hstat] at hdone
    exact absurd hdone hnotdone

theorem start_num_rounds_pos (s : DraftState) (L : Nat) :
    1 ≤ (match s.draft.num_rounds with
      | some r => if r == 0 then max 1 ((eligiblePlayers s).length / L) else r
      | none => max 1 ((eligiblePlayers s).length / L)) := by
  cases hnr : s.draft.num_rounds with
  | none => simp
  | some r0 =>
    by_cases hz : r0 = 0
    · simp [hz]
    · simp only [beq_iff_eq]
      rw [if_neg hz]
      omega

theorem inv_after_start {s s' : DraftState} {u : String} {now : Nat}
    (inv : DraftInv s) (h : start_draft s u now = Except.ok s') : DraftInv s' := by
  obtain ⟨hsetup, hlen2, hteams, hpicks, hrosters, hdraft⟩ := start_ok_inv h
  have hempty : s.picks = [] := inv.setup_empty hsetup
  have hlenL : (sortedBy (fun a b => a.pick_order ≤ b.pick_order)
      (sortedBy (fun a b => docIdLe a.id b.id) s.teams)).length = s.teams.length := by
    rw [sortedBy_length, sortedBy_length]
  have hpicks' : s'.picks = [] := by rw [hpicks, hempty]
  have hstat : s'.draft.status = DraftStatus.active := by rw [hdraft]
  have hM := start_num_rounds_pos s ((sortedBy (fun a b => a.pick_order ≤ b.pick_order)
      (sortedBy (fun a b => docIdLe a.id b.id) s.teams)).length)
  have hL2 : 2 ≤ (sortedBy (fun a b => a.pick_order ≤ b.pick_order)
      (sortedBy (fun a b => docIdLe a.id b.id) s.teams)).length := by
    rw [hlenL]; exact hlen2
  refine ⟨?_, ?_, ?_, ?_, ?_, ?_⟩
  · rw [hpicks']; simp
  · rw [hpicks']; simp
  · intro hcontr; rw [hstat] at hcontr; cases hcontr
  · intro _
    rw [hpicks', hdraft]
    simp
  · intro _
    rw [hdraft]
    refine ⟨_, rfl, hM, hL2, ?_⟩
    simpa using Nat.mul_le_mul hM (le_trans (by omega) hL2)
  · intro hcontr
    rw [hstat] at hcontr
    cases hcontr

/-- Every reachable draft state satisfies the invariant. -/
theorem reach_inv {s : DraftState} (h : Reach s) : DraftInv s := by
  induction h with
  | init d ps hsetup hcp => exact inv_of_empty_setup hsetup rfl
  | setup_edit t' d' _ hsetup hd' hid ih =>
    exact inv_of_empty_setup hd' (ih.setup_empty hsetup)
  | external ps rks _ ih =>
    exact ⟨ih.players_nodup, ih.numbered, ih.setup_empty, ih.live_ptr, ih.live_cfg,
      ih.done_ptr⟩
  | start uid now _ hok ih => exact inv_after_start ih hok
  | pause uid _ hok ih =>
    obtain ⟨hact, hs'⟩ := pause_ok_inv hok
    subst hs'
    refine ⟨ih.players_nodup, ih.numbered, ?_, ?_, ?_, ?_⟩
    · intro hcontr; cases hcontr
    · intro _; exact ih.live_ptr (Or.inl hact)
    · intro _; exact ih.live_cfg (Or.inl hact)
    · intro hcontr; cases hcontr
  | resume uid now _ hok ih =>
    obtain ⟨hpsd, hs'⟩ := resume_ok_inv hok
    subst hs'
    refine ⟨ih.players_nodup, ih.numbered, ?_, ?_, ?_, ?_⟩
    · intro hcontr; cases hcontr
    · intro _; exact ih.live_ptr (Or.inr hpsd)
    · intro _; exact ih.live_cfg (Or.inr hpsd)
    · intro hcontr; cases hcontr
  | pick pid uid pickId now pk _ hok ih =>
    obtain ⟨hst, td, heq, hperm, hdup, hnum, hpid, hir, hpicks, hdraft⟩ :=
      make_pick_ok_inv hok
    refine inv_after_pick ih hst hnum ?_ hpicks hdraft
    rw [hpid]
    exact not_drafted_of_any_false hdup
  | auto pickId now pk _ hok ih =>
    obtain ⟨hst, hflag, hgate, td, heq, havne, hnum, hmem, hir, htype, hpicks, hdraft⟩ :=
      auto_pick_ok_inv hok
    exact inv_after_pick ih hst hnum (mem_available_not_drafted hmem) hpicks hdraft
  | undo uid _ hok ih => exact inv_after_undo ih hok

-- ============================================================================
-- Concrete example states used by the scenario theorems
-- ============================================================================

def exPlayers : List Player :=
  [{ id := "p1", event_id := "e1", age_group := none, composite_score := 10 },
   { id := "p2", event_id := "e1", age_group := none, composite_score := 9 },
   { id := "p3", event_id := "e1", age_group := none, composite_score := 8 },
   { id := "p4", event_id := "e1", age_group := none, composite_score := 7 }]

def exDraft : Draft :=
  initial_draft ("d1") ("e1") ("l1") ("TestDraft") none DraftType.snake (some 2) 0
    true ("org")

def exTeamA : Team :=
  { id := "ta", draft_id := "d1", team_name := "Team One", coach_user_id := none,
    coach_name := none, pick_order := 1 }

def exTeamB : Team :=
  { id := "tb", draft_id := "d1", team_name := "Team Two", coach_user_id := none,
    coach_name := none, pick_order := 2 }

def exInit : DraftState :=
  { draft := exDraft, teams := [], picks := [], rankings := [], players := exPlayers,
    rosters := [] }

def exSetup : DraftState :=
  { exInit with teams := [exTeamA, exTeamB]
                draft := { exDraft with num_teams := 2 } }

/-- The state after a handler pick, or the input state when the handler
fails (used only to chain concrete scenario states). -/
def stepPick (s : DraftState) (p u pid : String) (now : Nat) : DraftState :=
  match make_pick s p u pid now with
  | Except.ok (s', _) => s'
  | Except.error _ => s

/-- The state after `start_draft`, or the input state on failure. -/
def stepStart (s : DraftState) (uid : String) (now : Nat) : DraftState :=
  match start_draft s uid now with
  | Except.ok s' => s'
  | Except.error _ => s

def exActive : DraftState := stepStart exSetup ("org") 0

def c6s1 : DraftState := stepPick exActive ("p1") ("org") ("pick_w") 0
def c6s2 : DraftState := stepPick c6s1 ("p2") ("org") ("pick_x") 0
def c6s3 : DraftState := stepPick c6s2 ("p3") ("org") ("pick_y") 0
def c6fin : DraftState := stepPick c6s3 ("p4") ("org") ("pick_a") 0

theorem reach_exActive : Reach exActive := by
  have h0 : Reach exInit := Reach.init exDraft exPlayers rfl rfl
  have h1 : Reach exSetup :=
    Reach.setup_edit [exTeamA, exTeamB] { exDraft with num_teams := 2 } h0 rfl rfl rfl
  exact Reach.start ("org") 0 h1 (by decide)

-- ============================================================================
-- Claim theorems
-- ============================================================================

/-- Modelled from the spec: the `team_for_pick` formula of §4.2
(PickScheduler), written from the spec's words for comparison with the
source's `get_pick_team`. -/
def team_for_pick_spec (d : Draft) (overall_pick : Nat) : Option String :=
  let n := d.team_order.length
  let round := ((overall_pick - 1) / n) + 1
  let order := if d.draft_type = DraftType.linear ∨ round % 2 = 1
    then d.team_order else d.team_order.reverse
  order[(overall_pick - 1) % n]?

/-- Claim C2: for every overall pick number `p ≥ 1` the team on the clock
is `order[(p-1) % num_teams]` with `order = team_order` for a linear draft
or an odd round and `reversed(team_order)` for an even snake round; in
particular a snake draft over `[T1, T2, T3]` yields the pick sequence
`T1, T2, T3, T3, T2, T1`. -/
theorem get_pick_team_matches_spec :
    (∀ (d : Draft) (p : Nat), d.team_order ≠ [] → 1 ≤ p →
      (get_pick_team d p = team_for_pick_spec d p ∧
       (get_pick_team d p).isSome = true)) ∧
    ((List.range 6).map (fun i =>
        get_pick_team { exDraft with team_order := ["T1", "T2", "T3"] } (i + 1)) =
      [some ("T1"), some ("T2"), some ("T3"), some ("T3"), some ("T2"), some ("T1")]) := by
  constructor
  · intro d p hne _
    have hn : d.team_order.length ≠ 0 := by
      intro h
      exact hne (List.length_eq_zero.mp h)
    have hlt : (p - 1) % d.team_order.length < d.team_order.length :=
      Nat.mod_lt _ (Nat.pos_of_ne_zero hn)
    constructor
    · simp only [get_pick_team, team_for_pick_spec, calculate_snake_order]
      rw [if_neg (by simpa using hn)]
      cases hdt : d.draft_type with
      | snake =>
        by_cases hodd : ((p - 1) / d.team_order.length + 1) % 2 = 1
        · simp [hodd]
        · simp [hodd]
      | linear => simp
    · simp only [get_pick_team, calculate_snake_order]
      rw [if_neg (by simpa using hn)]
      have hsome : ∀ (l : List String), l.length = d.team_order.length →
          (l[(p - 1) % d.team_order.length]?).isSome = true := by
        intro l hl
        rw [List.getElem?_eq_getElem (by rw [hl]; exact hlt)]
        rfl
      split
      · split
        · exact hsome _ rfl
        · exact hsome _ (List.length_reverse _)
      · exact hsome _ rfl
  · decide

/-- Claim C2 witness: the general part applied at the concrete three-team
snake draft and pick 4. -/
theorem get_pick_team_matches_spec_witness :
    get_pick_team { exDraft with team_order := ["T1", "T2", "T3"] } 4 =
      team_for_pick_spec { exDraft with team_order := ["T1", "T2", "T3"] } 4 :=
  (get_pick_team_matches_spec.1 { exDraft with team_order := ["T1", "T2", "T3"] } 4
    (by decide) (by decide)).1

/-- Claim C3: in every reachable state, while the draft is active the
overall pick pointer equals the ledger size plus one, and on completion it
equals `num_rounds * num_teams`. -/
theorem current_pick_tracks_ledger :
    ∀ s : DraftState, Reach s →
      (s.draft.status = DraftStatus.active →
        s.draft.current_pick = s.picks.length + 1) ∧
      (s.draft.status = DraftStatus.completed →
        ∃ r, s.draft.num_rounds = some r ∧
          s.draft.current_pick = r * s.draft.num_teams) := by
  intro s h
  have inv := reach_inv h
  refine ⟨fun ha => inv.live_ptr (Or.inl ha), fun hc => ?_⟩
  obtain ⟨r, hr, hcp, _⟩ := inv.done_ptr hc
  exact ⟨r, hr, hcp⟩

/-- Claim C3 witness: the invariant read off at a concrete freshly started
draft. -/
theorem current_pick_tracks_ledger_witness :
    exActive.draft.current_pick = exActive.picks.length + 1 :=
  (current_pick_tracks_ledger exActive reach_exActive).1 (by decide)

/-- Claim C10: `start`, `pause` and `resume` never read the caller's
identity — any two authenticated users get identical outcomes — and their
success depends only on the draft's status (plus the team count for
`start`). -/
theorem lifecycle_user_independent :
    ∀ (s : DraftState) (u1 u2 : String) (now : Nat),
      start_draft s u1 now = start_draft s u2 now ∧
      pause_draft s u1 = pause_draft s u2 ∧
      resume_draft s u1 now = resume_draft s u2 now ∧
      ((∃ s', start_draft s u1 now = Except.ok s') ↔
        (s.draft.status = DraftStatus.setup ∧ 2 ≤ s.teams.length)) ∧
      ((∃ s', pause_draft s u1 = Except.ok s') ↔
        s.draft.status = DraftStatus.active) ∧
      ((∃ s', resume_draft s u1 now = Except.ok s') ↔
        s.draft.status = DraftStatus.paused) := by
  intro s u1 u2 now
  refine ⟨rfl, rfl, rfl, ⟨?_, ?_⟩, ⟨?_, ?_⟩, ⟨?_, ?_⟩⟩
  · rintro ⟨s', hok⟩
    have := start_ok_inv hok
    exact ⟨this.1, this.2.1⟩
  · rintro ⟨hsetup, hlen⟩
    cases hres : start_draft s u1 now with
    | ok s' => exact ⟨s', rfl⟩
    | error e =>
      rcases start_err_inv hres with ⟨_, hc⟩ | ⟨_, _, hc⟩
      · exact absurd hsetup hc
      · omega
  · rintro ⟨s', hok⟩
    exact (pause_ok_inv hok).1
  · intro hact
    cases hres : pause_draft s u1 with
    | ok s' => exact ⟨s', rfl⟩
    | error e => exact absurd hact (pause_err_inv hres).2
  · rintro ⟨s', hok⟩
    exact (resume_ok_inv hok).1
  · intro hpsd
    cases hres : resume_draft s u1 now with
    | ok s' => exact ⟨s', rfl⟩
    | error e => exact absurd hpsd (resume_err_inv hres).2

/-- Claim C10 witness: the user-independence and the status-only success
condition at a concrete setup draft and two distinct users. -/
theorem lifecycle_user_independent_witness :
    start_draft exSetup ("alice") 0 = start_draft exSetup ("bob") 0 ∧
    (∃ s', start_draft exSetup ("alice") 0 = Except.ok s') :=
  ⟨(lifecycle_user_independent exSetup ("alice") ("bob") 0).1,
   (lifecycle_user_independent exSetup ("alice") ("bob") 0).2.2.2.1.mpr
     ⟨by decide, by decide⟩⟩

/-- Claim C5 counterexample: a draft that has just completed through its
final pick rejects `undo_last_pick` even for the creator — the claimed
completed-draft undo/reopen never happens.  `c6fin` is produced by the
final `make_pick` of a full 2-team, 2-round draft. -/
theorem undo_completed_rejected_cex :
    (make_pick c6s3 ("p4") ("org") ("pick_a") 0).map (fun x => x.1) =
      Except.ok c6fin ∧
    c6fin.draft.status = DraftStatus.completed ∧
    c6fin.draft.created_by = "org" ∧
    undo_last_pick c6fin ("org") = Except.error DraftError.invalidState := by
  decide

/-- Claim C5 amended: on a completed draft `undo_last_pick` is rejected
with `InvalidStateError` (the status guard admits only active and paused),
so no Pick is deleted and the completed-to-active reopen assignment in the
handler is unreachable. -/
theorem undo_rejects_completed_draft :
    ∀ (s : DraftState) (u : String), s.draft.status = DraftStatus.completed →
      s.draft.created_by = u →
      undo_last_pick s u = Except.error DraftError.invalidState := by
  intro s u hc hcb
  simp only [undo_last_pick]
  rw [if_neg (by simp [hcb])]
  rw [if_pos (by rw [hc]; rintro (h | h) <;> cases h)]

/-- Claim C5 witness: the amended statement applied at the concrete
completed draft. -/
theorem undo_rejects_completed_draft_witness :
    undo_last_pick c6fin ("org") = Except.error DraftError.invalidState :=
  undo_rejects_completed_draft c6fin ("org") (by decide) (by decide)

/-- Claim C7 counterexample: with the timer disabled
(`pick_timer_seconds = 0`) an active draft has no `pick_deadline`, yet
`auto_pick` is not rejected with `TimerNotExpiredError` — it records an
auto pick. -/
theorem auto_pick_no_deadline_cex :
    exActive.draft.status = DraftStatus.active ∧
    exActive.draft.auto_pick_on_timeout = true ∧
    exActive.draft.pick_deadline = none ∧
    (auto_pick exActive ("pk_auto") 99).map (fun x => x.2.pick_type) =
      Except.ok ("auto") := by
  decide

/-- Claim C7 amended: `auto_pick` requires an active draft with
`auto_pick_on_timeout`; the timer gate rejects with `TimerNotExpiredError`
exactly when `pick_deadline` is set and `now < pick_deadline` — an unset
deadline passes the gate — and when the gate passes, the current team
resolves and an eligible undrafted player exists, an auto pick is
recorded. -/
theorem auto_pick_timer_gate :
    ∀ (s : DraftState) (pid : String) (now : Nat),
      (s.draft.status ≠ DraftStatus.active →
        auto_pick s pid now = Except.error DraftError.invalidState) ∧
      (s.draft.status = DraftStatus.active → s.draft.auto_pick_on_timeout = false →
        auto_pick s pid now = Except.error DraftError.autoPickDisabled) ∧
      (∀ deadline, s.draft.status = DraftStatus.active →
        s.draft.auto_pick_on_timeout = true →
        s.draft.pick_deadline = some deadline → now < deadline →
        auto_pick s pid now = Except.error DraftError.timerNotExpired) ∧
      (s.draft.status = DraftStatus.active → s.draft.auto_pick_on_timeout = true →
        (s.draft.pick_deadline = none ∨
          ∃ deadline, s.draft.pick_deadline = some deadline ∧ deadline ≤ now) →
        (∃ td, currentTeam s = some td) → availableIds s ≠ [] →
        ∃ s' pk, auto_pick s pid now = Except.ok (s', pk) ∧
          pk.pick_type = "auto" ∧ s'.picks = s.picks ++ [pk]) := by
  intro s pid now
  refine ⟨?_, ?_, ?_, ?_⟩
  · intro hst
    simp only [auto_pick]
    rw [if_pos hst]
  · intro hst hflag
    simp only [auto_pick]
    rw [if_neg (by simp [hst])]
    rw [if_pos (by simp [hflag])]
  · intro deadline hst hflag hdl hlt
    exact auto_pick_err_timer hst hflag hdl hlt
  · rintro hst hflag hgate ⟨td, heq⟩ hav
    cases hres : auto_pick s pid now with
    | ok out =>
      obtain ⟨_, _, _, td', _, _, _, _, _, htype, hpicks, _⟩ :=
        auto_pick_ok_inv (show auto_pick s pid now = Except.ok (out.1, out.2) by
          rw [← hres])
      exact ⟨out.1, out.2, by rw [← hres], htype, hpicks⟩
    | error e =>
      rcases auto_pick_err_inv hres with ⟨_, hc⟩ | ⟨_, hc⟩ | ⟨_, hc⟩ | ⟨_, hc⟩ | ⟨_, hc⟩
      · exact absurd hst hc
      · rw [hflag] at hc; cases hc
      · rcases hgate with hnone | ⟨deadline, hdl, hle⟩
        · rw [hnone] at hc; cases hc
        · rw [hdl] at hc
          simp only [decide_eq_true_eq] at hc
          omega
      · rw [heq] at hc; cases hc
      · exact absurd hc hav

/-- Claim C7 witness: the success branch applied at the concrete active
draft without a deadline. -/
theorem auto_pick_timer_gate_witness :
    ∃ s' pk, auto_pick exActive ("pk_auto") 99 = Except.ok (s', pk) ∧
      pk.pick_type = "auto" ∧ s'.picks = exActive.picks ++ [pk] :=
  (auto_pick_timer_gate exActive ("pk_auto") 99).2.2.2 (by decide) (by decide)
    (Or.inl (by decide)) ⟨exTeamA, by decide⟩ (by decide)

/-- Claim C8 counterexample: the first pick of a 2-team draft is stamped
`pick_in_round = 1` by `make_pick` while the PickScheduler value
`(pick_number - 1) % num_teams` is `0`, and the pick written by
`auto_pick` carries no `pick_in_round` field at all. -/
theorem pick_in_round_stamp_cex :
    (make_pick exActive ("p1") ("org") ("pick_w") 0).map
      (fun x => x.2.pick_in_round) = Except.ok (some 1) ∧
    exActive.draft.current_pick = 1 ∧
    ((1 - 1) % exActive.draft.num_teams : Nat) = 0 ∧
    some (1 : Int) ≠ some (0 : Int) ∧
    (auto_pick exActive ("pk_auto") 99).map (fun x => x.2.pick_in_round) =
      Except.ok none := by
  decide

/-- Claim C8 amended: a `make_pick` Pick is stamped with the 1-based value
`(pick_number - 1) % num_teams + 1` (one more than the PickScheduler's
0-based `pick_in_round`) whenever the round pointer is consistent with the
pick pointer, while an `auto_pick` Pick has no `pick_in_round` field. -/
theorem pick_in_round_stamp :
    (∀ (s s' : DraftState) (p u pid : String) (now : Nat) (pk : Pick),
      make_pick s p u pid now = Except.ok (s', pk) →
      1 ≤ s.draft.current_pick → 0 < s.draft.num_teams →
      s.draft.current_round = (s.draft.current_pick - 1) / s.draft.num_teams + 1 →
      pk.pick_in_round =
        some (((s.draft.current_pick - 1) % s.draft.num_teams + 1 : Nat) : Int)) ∧
    (∀ (s s' : DraftState) (pid : String) (now : Nat) (pk : Pick),
      auto_pick s pid now = Except.ok (s', pk) → pk.pick_in_round = none) := by
  constructor
  · intro s s' p u pid now pk hok hcp hnt hcr
    obtain ⟨_, _, _, _, _, _, _, hir, _, _⟩ := make_pick_ok_inv hok
    rw [hir, hcr]
    congr 1
    have hdm := Nat.div_add_mod (s.draft.current_pick - 1) s.draft.num_teams
    generalize hq : (s.draft.current_pick - 1) / s.draft.num_teams = q at hdm ⊢
    generalize hr : (s.draft.current_pick - 1) % s.draft.num_teams = r at hdm ⊢
    have hdm2 : s.draft.num_teams * q + r + 1 = s.draft.current_pick := by omega
    have hdm3 : (s.draft.num_teams : Int) * (q : Int) + (r : Int) + 1 =
        (s.draft.current_pick : Int) := by exact_mod_cast hdm2
    push_cast
    linear_combination (-1 : Int) * hdm3
  · intro s s' pid now pk hok
    obtain ⟨_, _, _, _, _, _, _, _, hir, _, _, _⟩ := auto_pick_ok_inv hok
    exact hir

/-- Claim C8 witness: both stamps observed on the concrete first pick of
the example draft. -/
theorem pick_in_round_stamp_witness :
    (∃ out, make_pick exActive ("p1") ("org") ("pick_w") 0 = Except.ok out ∧
      out.2.pick_in_round = some (((exActive.draft.current_pick - 1) %
        exActive.draft.num_teams + 1 : Nat) : Int)) ∧
    (∃ out, auto_pick exActive ("pk_auto") 99 = Except.ok out ∧
      out.2.pick_in_round = none) := by
  constructor
  · cases hres : make_pick exActive ("p1") ("org") ("pick_w") 0 with
    | ok out =>
      exact ⟨out, rfl, pick_in_round_stamp.1 exActive out.1 ("p1") ("org") ("pick_w")
        0 out.2 (by rw [← hres]) (by decide) (by decide) (by decide)⟩
    | error e =>
      have : (make_pick exActive ("p1") ("org") ("pick_w") 0).map
          (fun x => x.2.pick_type) = Except.ok ("manual") := by decide
      rw [hres] at this
      cases this
  · cases hres : auto_pick exActive ("pk_auto") 99 with
    | ok out =>
      exact ⟨out, rfl, pick_in_round_stamp.2 exActive out.1 ("pk_auto") 99 out.2
        (by rw [← hres])⟩
    | error e =>
      have : (auto_pick exActive ("pk_auto") 99).map
          (fun x => x.2.pick_type) = Except.ok ("auto") := by decide
      rw [hres] at this
      cases this

def fivePlayers : List Player :=
  [{ id := "q1", event_id := "e1", age_group := none, composite_score := 5 },
   { id := "q2", event_id := "e1", age_group := none, composite_score := 4 },
   { id := "q3", event_id := "e1", age_group := none, composite_score := 3 },
   { id := "q4", event_id := "e1", age_group := none, composite_score := 2 },
   { id := "q5", event_id := "e1", age_group := none, composite_score := 1 }]

/-- A setup draft with 2 teams, 5 eligible players and `num_rounds` left
unset, for the round-computation scenario. -/
def c4Setup : DraftState :=
  { draft := { initial_draft ("d4") ("e1") ("l1") ("AutoRounds") none DraftType.snake
      none 30 true ("org") with num_teams := 2 }
    teams := [exTeamA, exTeamB]
    picks := []
    rankings := []
    players := fivePlayers
    rosters := [] }

/-- Claim C4: `start_draft` demands a setup draft with at least two teams,
freezes `team_order` as the team ids sorted by `pick_order`, computes
`num_rounds = max 1 (eligible_count / num_teams)` when unset (so 2 teams
and 5 players give 2 rounds), initialises the pointers to round 1 / pick 1
/ first team, arms the deadline exactly when a timer is configured, and
activates the draft. -/
theorem start_draft_effects :
    (∀ (s : DraftState) (u : String) (now : Nat),
      (s.draft.status ≠ DraftStatus.setup →
        start_draft s u now = Except.error DraftError.invalidState) ∧
      (s.draft.status = DraftStatus.setup → s.teams.length < 2 →
        start_draft s u now = Except.error DraftError.insufficientTeams) ∧
      (s.draft.status = DraftStatus.setup → 2 ≤ s.teams.length →
        ∃ s', start_draft s u now = Except.ok s' ∧
          s'.draft.status = DraftStatus.active ∧
          s'.draft.current_round = 1 ∧
          s'.draft.current_pick = 1 ∧
          s'.draft.team_order = (sortedBy (fun a b => a.pick_order ≤ b.pick_order)
            (sortedBy (fun a b => docIdLe a.id b.id) s.teams)).map (fun t => t.id) ∧
          List.Perm s'.draft.team_order (s.teams.map (fun t => t.id)) ∧
          ((sortedBy (fun a b => a.pick_order ≤ b.pick_order)
            (sortedBy (fun a b => docIdLe a.id b.id) s.teams)).map
              (fun t => t.pick_order)).Pairwise (fun x y => x ≤ y) ∧
          s'.draft.current_team_id = s'.draft.team_order.head? ∧
          (s.draft.num_rounds = none →
            s'.draft.num_rounds =
              some (max 1 ((eligiblePlayers s).length / s.teams.length))) ∧
          s'.draft.pick_deadline = (if 0 < s.draft.pick_timer_seconds
            then some (now + s.draft.pick_timer_seconds) else none))) ∧
    (∃ s', start_draft c4Setup ("org") 7 = Except.ok s' ∧
      s'.draft.num_rounds = some 2 ∧ s'.draft.num_teams = 2 ∧
      s'.draft.status = DraftStatus.active) := by
  constructor
  · intro s u now
    refine ⟨?_, ?_, ?_⟩
    · intro hst
      simp only [start_draft]
      rw [if_pos hst]
    · intro hsetup hlt
      simp only [start_draft]
      rw [if_neg (by simp [hsetup])]
      rw [if_pos (by rw [sortedBy_length]; exact hlt)]
    · intro hsetup hlen
      cases hres : start_draft s u now with
      | error e =>
        rcases start_err_inv hres with ⟨_, hc⟩ | ⟨_, _, hc⟩
        · exact absurd hsetup hc
        · omega
      | ok s' =>
        obtain ⟨_, _, hteams, hpicks, hrosters, hdraft⟩ := start_ok_inv hres
        refine ⟨s', rfl, ?_, ?_, ?_, ?_, ?_, ?_, ?_, ?_, ?_⟩
        · rw [hdraft]
        · rw [hdraft]
        · rw [hdraft]
        · rw [hdraft]
        · rw [hdraft]
          have h1 := sortedBy_perm (fun (a b : Team) => docIdLe a.id b.id) s.teams
          have h2 := sortedBy_perm (fun (a b : Team) => a.pick_order ≤ b.pick_order)
            (sortedBy (fun a b => docIdLe a.id b.id) s.teams)
          exact (h2.trans h1).map (fun t => t.id)
        · have hp := sortedBy_pairwise
            (fun (a b : Team) => a.pick_order ≤ b.pick_order)
            (fun a b => by
              by_cases h : a.pick_order ≤ b.pick_order
              · exact Or.inl (by simpa using h)
              · exact Or.inr (by simp; omega))
            (fun a b c hab hbc => by
              simp only [decide_eq_true_eq] at hab hbc ⊢
              omega)
            (sortedBy (fun a b => docIdLe a.id b.id) s.teams)
          rw [List.pairwise_map]
          exact hp.imp (fun h => by simpa using h)
        · rw [hdraft]
        · intro hnone
          rw [hdraft]
          simp only [hnone]
          rw [sortedBy_length, sortedBy_length]
        · rw [hdraft]
  · exact ⟨stepStart c4Setup ("org") 7, by decide, by decide, by decide, by decide⟩

/-- Claim C4 witness: the success branch applied at the concrete two-team
setup draft. -/
theorem start_draft_effects_witness :
    ∃ s', start_draft exSetup ("org") 0 = Except.ok s' ∧
      s'.draft.status = DraftStatus.active :=
  (((start_draft_effects.1 exSetup ("org") 0).2.2 (by decide) (by decide)).imp
    (fun s' h => ⟨h.1, h.2.1⟩))

/-- Claim C1: with the on-the-clock team resolved, `make_pick` succeeds
exactly when the draft is active, the actor is the draft creator or that
team's coach, and the player is not yet in any Pick of the draft; the
permission failure raises the not-your-turn error, the duplicate-player
failure raises the conflict error (each before anything is written), and
along every reachable history no player id ever appears in two Picks. -/
theorem make_pick_turn_guard :
    (∀ (s : DraftState) (p u pid : String) (now : Nat) (td : Team),
      currentTeam s = some td →
      (((∃ out, make_pick s p u pid now = Except.ok out) ↔
         (s.draft.status = DraftStatus.active ∧
          (s.draft.created_by = u ∨ td.coach_user_id = some u) ∧
          p ∉ s.picks.map (fun q => q.player_id))) ∧
       (s.draft.status = DraftStatus.active →
         ¬(s.draft.created_by = u ∨ td.coach_user_id = some u) →
         make_pick s p u pid now = Except.error DraftError.permissionDenied) ∧
       (s.draft.status = DraftStatus.active →
         (s.draft.created_by = u ∨ td.coach_user_id = some u) →
         p ∈ s.picks.map (fun q => q.player_id) →
         make_pick s p u pid now = Except.error DraftError.playerAlreadyDrafted))) ∧
    (∀ s : DraftState, Reach s → (s.picks.map (fun pk => pk.player_id)).Nodup) := by
  constructor
  · intro s p u pid now td heq
    refine ⟨⟨?_, ?_⟩, ?_, ?_⟩
    · rintro ⟨out, hok⟩
      obtain ⟨hst, td', heq', hperm, hdup, _⟩ :=
        make_pick_ok_inv (show make_pick s p u pid now = Except.ok (out.1, out.2) by
          rw [← hok])
      rw [heq] at heq'
      injection heq' with htd
      subst htd
      exact ⟨hst, by simpa using hperm, not_drafted_of_any_false hdup⟩
    · rintro ⟨hst, hperm, hdup⟩
      cases hres : make_pick s p u pid now with
      | ok out => exact ⟨out, rfl⟩
      | error e =>
        rcases make_pick_err_inv hres with ⟨_, hc⟩ | ⟨_, _, hc⟩ |
          ⟨_, _, td', heq', hc⟩ | ⟨_, _, _, hc⟩
        · exact absurd hst hc
        · rw [heq] at hc; cases hc
        · rw [heq] at heq'
          injection heq' with htd
          subst htd
          rw [show ((s.draft.created_by == u) || (td.coach_user_id == some u)) = true
            from by simpa using hperm] at hc
          cases hc
        · refine absurd ?_ hdup
          rcases List.any_eq_true.mp hc with ⟨q, hq, hqp⟩
          exact List.mem_map.mpr ⟨q, hq, by simpa using hqp⟩
    · intro hst hperm
      cases hres : make_pick s p u pid now with
      | ok out =>
        obtain ⟨_, td', heq', hpermT, _⟩ :=
          make_pick_ok_inv (show make_pick s p u pid now = Except.ok (out.1, out.2) by
            rw [← hres])
        rw [heq] at heq'
        injection heq' with htd
        subst htd
        exact absurd (by simpa using hpermT) hperm
      | error e =>
        rcases make_pick_err_inv hres with ⟨_, hc⟩ | ⟨_, _, hc⟩ |
          ⟨he, _, _⟩ | ⟨_, _, ⟨td', heq', hpermT⟩, _⟩
        · exact absurd hst hc
        · rw [heq] at hc; cases hc
        · rw [he]
        · rw [heq] at heq'
          injection heq' with htd
          subst htd
          exact absurd (by simpa using hpermT) hperm
    · intro hst hperm hmem
      cases hres : make_pick s p u pid now with
      | ok out =>
        obtain ⟨_, _, _, _, hdup, _⟩ :=
          make_pick_ok_inv (show make_pick s p u pid now = Except.ok (out.1, out.2) by
            rw [← hres])
        exact absurd hmem (not_drafted_of_any_false hdup)
      | error e =>
        rcases make_pick_err_inv hres with ⟨_, hc⟩ | ⟨_, _, hc⟩ |
          ⟨_, _, td', heq', hc⟩ | ⟨he, _, _, _⟩
        · exact absurd hst hc
        · rw [heq] at hc; cases hc
        · rw [heq] at heq'
          injection heq' with htd
          subst htd
          rw [show ((s.draft.created_by == u) || (td.coach_user_id == some u)) = true
            from by simpa using hperm] at hc
          cases hc
        · rw [he]
  · intro s h
    exact (reach_inv h).players_nodup

/-- Claim C1 witness: the success direction at a concrete active draft
(creator picks an undrafted player) and the uniqueness invariant at a
concrete reachable state. -/
theorem make_pick_turn_guard_witness :
    (∃ out, make_pick exActive ("p1") ("org") ("pick_w") 0 = Except.ok out) ∧
    (exActive.picks.map (fun pk => pk.player_id)).Nodup :=
  ⟨((make_pick_turn_guard.1 exActive ("p1") ("org") ("pick_w") 0 exTeamA
      (by decide)).1).mpr ⟨by decide, Or.inl (by decide), by decide⟩,
   make_pick_turn_guard.2 exActive reach_exActive⟩

-- ============================================================================
-- Lemmas about the roster grouping fold
-- ============================================================================

/-- Value stored for a team key in a group list (the `team_players` dict). -/
def lookupG (gs : List (String × List String)) (t : String) : Option (List String) :=
  (gs.find? (fun g => g.1 == t)).map (fun g => g.2)

/-- What a fold over further picks does to one key's stored list. -/
def combineG : Option (List String) → List String → Option (List String)
  | some v, w => some (v ++ w)
  | none, w => if w = [] then none else some w

theorem addToGroups_lookup_same (gs : List (String × List String)) (t p : String) :
    lookupG (addToGroups gs t p) t = some ((lookupG gs t).getD [] ++ [p]) := by
  induction gs with
  | nil => simp [addToGroups, lookupG]
  | cons g rest ih =>
    obtain ⟨k, ps⟩ := g
    by_cases hk : k = t
    · subst hk
      simp [addToGroups, lookupG]
    · have hkb : (k == t) = false := by simpa using hk
      simp only [addToGroups, hkb, Bool.false_eq_true, if_false]
      simp only [lookupG, List.find?_cons, hkb] at ih ⊢
      exact ih

theorem addToGroups_lookup_other (gs : List (String × List String)) (t p t' : String)
    (h : t' ≠ t) : lookupG (addToGroups gs t p) t' = lookupG gs t' := by
  induction gs with
  | nil =>
    have : (t == t') = false := by simpa using fun hc => h hc.symm
    simp [addToGroups, lookupG, this]
  | cons g rest ih =>
    obtain ⟨k, ps⟩ := g
    by_cases hk : k = t
    · subst hk
      have : (k == t') = false := by simpa using fun hc => h hc.symm
      simp [addToGroups, lookupG, List.find?_cons, this]
    · have hkb : (k == t) = false := by simpa using hk
      by_cases hk' : k = t'
      · subst hk'
        simp [addToGroups, hkb, lookupG, List.find?_cons]
      · have hkb' : (k == t') = false := by simpa using hk'
        simp only [addToGroups, hkb, Bool.false_eq_true, if_false]
        simp only [lookupG, List.find?_cons, hkb'] at ih ⊢
        exact ih

theorem addToGroups_keys (gs : List (String × List String)) (t p : String) :
    (addToGroups gs t p).map Prod.fst =
      if gs.any (fun g => g.1 == t) then gs.map Prod.fst
      else gs.map Prod.fst ++ [t] := by
  induction gs with
  | nil => simp [addToGroups]
  | cons g rest ih =>
    obtain ⟨k, ps⟩ := g
    by_cases hk : k = t
    · subst hk
      simp [addToGroups, List.any_cons]
    · have hkb : (k == t) = false := by simpa using hk
      simp only [addToGroups, hkb, Bool.false_eq_true, if_false, List.map_cons,
        List.any_cons, Bool.false_or]
      rw [ih]
      by_cases ha : rest.any (fun g => g.1 == t) = true
      · simp [ha]
      · simp only [Bool.not_eq_true] at ha
        simp [ha]

theorem groupFold_lookup (l : List Pick) :
    ∀ (gs : List (String × List String)) (t : String),
    lookupG (l.foldl (fun gs pk => addToGroups gs pk.team_id pk.player_id) gs) t =
      combineG (lookupG gs t)
        ((l.filter (fun pk => pk.team_id == t)).map (fun pk => pk.player_id)) := by
  induction l with
  | nil =>
    intro gs t
    simp only [List.foldl_nil, List.filter_nil, List.map_nil]
    cases h : lookupG gs t <;> simp [combineG]
  | cons pk l ih =>
    intro gs t
    simp only [List.foldl_cons]
    rw [ih]
    by_cases ht : pk.team_id = t
    · subst ht
      rw [addToGroups_lookup_same]
      simp only [List.filter_cons, beq_self_eq_true, if_true, List.map_cons]
      cases ho : lookupG gs pk.team_id with
      | some v => simp [combineG, List.append_assoc]
      | none => simp [combineG]
    · have htb : (pk.team_id == t) = false := by simpa using ht
      rw [addToGroups_lookup_other _ _ _ _ (fun hc => ht hc.symm)]
      simp [List.filter_cons, htb]

theorem groupFold_keys_nodup (l : List Pick) :
    ∀ gs : List (String × List String), (gs.map Prod.fst).Nodup →
    (((l.foldl (fun gs pk => addToGroups gs pk.team_id pk.player_id) gs)).map
      Prod.fst).Nodup := by
  induction l with
  | nil => intro gs h; simpa using h
  | cons pk l ih =>
    intro gs h
    simp only [List.foldl_cons]
    refine ih _ ?_
    rw [addToGroups_keys]
    by_cases ha : gs.any (fun g => g.1 == pk.team_id) = true
    · simpa [ha] using h
    · simp only [Bool.not_eq_true] at ha
      simp only [ha, Bool.false_eq_true, if_false]
      rw [List.nodup_append]
      refine ⟨h, by simp, ?_⟩
      intro x hx hx'
      rcases List.mem_singleton.mp hx' with rfl
      rcases List.mem_map.mp hx with ⟨g, hg, hgx⟩
      exact absurd (by simp [hgx] : (g.1 == pk.team_id) = true)
        (by simpa using List.any_eq_false.mp ha g hg)

theorem lookupG_isSome_iff_mem (gs : List (String × List String)) (t : String) :
    (lookupG gs t).isSome = true ↔ t ∈ gs.map Prod.fst := by
  simp only [lookupG]
  rw [show (Option.map (fun (g : String × List String) => g.2)
      (List.find? (fun g => g.1 == t) gs)).isSome
      = (List.find? (fun g => g.1 == t) gs).isSome from by
    cases List.find? (fun g => g.1 == t) gs <;> rfl]
  rw [List.find?_isSome]
  constructor
  · rintro ⟨g, hg, hgt⟩
    exact List.mem_map.mpr ⟨g, hg, by simpa using hgt⟩
  · intro h
    rcases List.mem_map.mp h with ⟨g, hg, hgt⟩
    exact ⟨g, hg, by simpa using hgt⟩

theorem lookupG_of_mem {gs : List (String × List String)} {t : String}
    {v : List String} (hnd : (gs.map Prod.fst).Nodup) (h : (t, v) ∈ gs) :
    lookupG gs t = some v := by
  induction gs with
  | nil => cases h
  | cons g rest ih =>
    obtain ⟨k, ps⟩ := g
    rcases List.mem_cons.mp h with heq | hmem
    · injection heq with h1 h2
      subst h1
      subst h2
      simp [lookupG, List.find?_cons]
    · have hk : k ≠ t := by
        intro hc
        subst hc
        have : k ∈ rest.map Prod.fst :=
          List.mem_map.mpr ⟨(k, v), hmem, rfl⟩
        exact (List.nodup_cons.mp (by simpa using hnd)).1 this
      have hkb : (k == t) = false := by simpa using hk
      have := ih (List.nodup_cons.mp (by simpa using hnd)).2 hmem
      simp only [lookupG, List.find?_cons, hkb] at this ⊢
      exact this

/-- Claim C6 counterexample: a completed 2-team, 2-round draft with picks
`T1 gets p1 (1), T2 gets p2 (2), T2 gets p3 (3), T1 gets p4 (4)` whose
final pick document happens to carry the lexicographically least id
produces `roster(T1) = [p4, p1]` — document-id order, not pick order —
because `_create_team_rosters` streams the picks without
`order_by("pick_number")`. -/
theorem roster_pick_order_cex :
    (make_pick c6s3 ("p4") ("org") ("pick_a") 0).map (fun x => x.1) =
      Except.ok c6fin ∧
    c6fin.draft.status = DraftStatus.completed ∧
    (c6fin.picks.map (fun pk => (pk.pick_number, pk.team_id, pk.player_id)) =
      [(1, ("ta"), ("p1")), (2, ("tb"), ("p2")),
       (3, ("tb"), ("p3")), (4, ("ta"), ("p4"))]) ∧
    c6fin.rosters.map (fun r => (r.team_name, r.player_ids)) =
      [(some ("Team One"), ["p4", "p1"]), (some ("Team Two"), ["p2", "p3"])] ∧
    (["p4", "p1"] : List String) ≠ ["p1", "p4"] := by
  decide

/-- Claim C6 amended: on completion exactly one roster is produced per
team that made picks (the grouping keys are exactly the picking teams,
without duplicates), and each team's `player_ids` lists that team's picked
players in document-id stream order — the order produced by the unordered
Firestore query, which need not follow pick_number. -/
theorem create_team_rosters_doc_order :
    ∀ (picks : List Pick) (teams : List Team) (d : Draft) (now : Nat),
      ((groupPicksByTeam (sortedBy (fun (a b : Pick) => docIdLe a.id b.id)
          picks)).map Prod.fst).Nodup ∧
      (∀ tid, tid ∈ (groupPicksByTeam (sortedBy (fun (a b : Pick) => docIdLe a.id b.id)
          picks)).map Prod.fst ↔ ∃ pk ∈ picks, pk.team_id = tid) ∧
      (∀ tid pids, (tid, pids) ∈ groupPicksByTeam
          (sortedBy (fun (a b : Pick) => docIdLe a.id b.id) picks) →
        pids = ((sortedBy (fun (a b : Pick) => docIdLe a.id b.id) picks).filter
          (fun pk => pk.team_id == tid)).map (fun pk => pk.player_id)) ∧
      create_team_rosters picks teams d now =
        (groupPicksByTeam (sortedBy (fun (a b : Pick) => docIdLe a.id b.id) picks)).map
          (mkRosterFromGroup teams d now) := by
  intro picks teams d now
  refine ⟨groupFold_keys_nodup _ [] (by simp), ?_, ?_, rfl⟩
  · intro tid
    rw [← lookupG_isSome_iff_mem]
    unfold groupPicksByTeam
    rw [groupFold_lookup]
    rw [show lookupG [] tid = none from rfl]
    simp only [combineG]
    by_cases hw : (((sortedBy (fun (a b : Pick) => docIdLe a.id b.id) picks).filter
        (fun pk => pk.team_id == tid)).map (fun pk => pk.player_id)) = []
    · rw [if_pos hw]
      constructor
      · intro h; cases h
      · rintro ⟨pk, hpk, hteam⟩
        have hmem : pk ∈ sortedBy (fun (a b : Pick) => docIdLe a.id b.id) picks :=
          (sortedBy_mem _ picks pk).mpr hpk
        have hin : pk.player_id ∈ ((sortedBy (fun (a b : Pick) => docIdLe a.id b.id)
            picks).filter (fun pk => pk.team_id == tid)).map
              (fun pk => pk.player_id) :=
          List.mem_map.mpr ⟨pk, List.mem_filter.mpr ⟨hmem, by simpa using hteam⟩, rfl⟩
        rw [hw] at hin
        cases hin
    · rw [if_neg hw]
      simp only [Option.isSome_some, true_iff]
      have hfil : ((sortedBy (fun (a b : Pick) => docIdLe a.id b.id) picks).filter
          (fun pk => pk.team_id == tid)) ≠ [] := by
        intro hc
        rw [hc] at hw
        exact hw rfl
      obtain ⟨pk, hpk⟩ := List.exists_mem_of_ne_nil _ hfil
      have := List.mem_filter.mp hpk
      exact ⟨pk, (sortedBy_mem _ picks pk).mp this.1, by simpa using this.2⟩
  · intro tid pids hmem
    have hnd := groupFold_keys_nodup (sortedBy (fun (a b : Pick) => docIdLe a.id b.id)
      picks) [] (by simp)
    have hl := lookupG_of_mem hnd hmem
    unfold groupPicksByTeam at hl
    rw [groupFold_lookup] at hl
    rw [show lookupG [] tid = none from rfl] at hl
    simp only [combineG] at hl
    by_cases hw : (((sortedBy (fun (a b : Pick) => docIdLe a.id b.id) picks).filter
        (fun pk => pk.team_id == tid)).map (fun pk => pk.player_id)) = []
    · rw [if_pos hw] at hl
      cases hl
    · rw [if_neg hw] at hl
      injection hl with h
      exact h.symm

/-- Claim C6 witness: the grouping characterization applied at the
concrete completed draft's ledger and team `ta`. -/
theorem create_team_rosters_doc_order_witness :
    (("ta"), (["p4", "p1"] : List String)) ∈ groupPicksByTeam
      (sortedBy (fun (a b : Pick) => docIdLe a.id b.id) c6fin.picks) ∧
    (["p4", "p1"] : List String) =
      ((sortedBy (fun (a b : Pick) => docIdLe a.id b.id) c6fin.picks).filter
        (fun pk => pk.team_id == ("ta"))).map (fun pk => pk.player_id) :=
  ⟨by decide,
   (create_team_rosters_doc_order c6fin.picks c6fin.teams c6fin.draft 0).2.2.1
     ("ta") ["p4", "p1"] (by decide)⟩

-- ============================================================================
-- Lemmas about the team-registry handlers
-- ============================================================================

/-- 0-based position of an id in the reorder list. -/
def idxIn : List String → String → Option Nat
  | [], _ => none
  | tid :: rest, x =>
    if x == tid then some 0 else (idxIn rest x).map (fun j => j + 1)

theorem idxIn_none_of_not_mem {ids : List String} {x : String} (h : x ∉ ids) :
    idxIn ids x = none := by
  induction ids with
  | nil => rfl
  | cons tid rest ih =>
    have hx : (x == tid) = false := by
      simpa using fun hc => h (by simp [hc])
    simp only [idxIn, hx, Bool.false_eq_true, if_false]
    rw [ih (fun hc => h (by simp [hc]))]
    rfl

theorem idxIn_some_of_mem {ids : List String} {x : String} (h : x ∈ ids) :
    ∃ j, idxIn ids x = some j := by
  induction ids with
  | nil => cases h
  | cons tid rest ih =>
    by_cases hx : x = tid
    · exact ⟨0, by simp [idxIn, hx]⟩
    · rcases List.mem_cons.mp h with hc | hc
      · exact absurd hc hx
      · obtain ⟨j, hj⟩ := ih hc
        refine ⟨j + 1, ?_⟩
        simp [idxIn, show (x == tid) = false from by simpa using hx, hj]

theorem applyReorderLoop_eq :
    ∀ (ids : List String) (ts : List Team) (i : Nat), ids.Nodup →
      (∀ id ∈ ids, ts.any (fun t => t.id == id) = true) →
      applyReorderLoop ts ids i = Except.ok (ts.map (fun t =>
        match idxIn ids t.id with
        | some j => { t with pick_order := i + j }
        | none => t)) := by
  intro ids
  induction ids with
  | nil =>
    intro ts i _ _
    simp [applyReorderLoop, idxIn]
  | cons tid rest ih =>
    intro ts i hnd hall
    obtain ⟨hnotin, hndrest⟩ := List.nodup_cons.mp hnd
    have hhead : ts.any (fun t => t.id == tid) = true := hall tid (by simp)
    simp only [applyReorderLoop, hhead, if_true]
    rw [ih (ts.map (fun t => if t.id == tid then { t with pick_order := i } else t))
      (i + 1) hndrest ?_]
    · congr 1
      rw [List.map_map]
      apply List.map_congr_left
      intro t _
      by_cases hcase : t.id = tid
      · have hb : (t.id == tid) = true := by simpa using hcase
        simp only [Function.comp, hb, if_true]
        have hnone : idxIn rest t.id = none :=
          idxIn_none_of_not_mem (by rw [hcase]; exact hnotin)
        simp [idxIn, hb, hnone]
      · have hb : (t.id == tid) = false := by simpa using hcase
        simp only [Function.comp, hb, Bool.false_eq_true, if_false]
        cases hidx : idxIn rest t.id with
        | some j =>
          simp only [idxIn, hb, Bool.false_eq_true, if_false, hidx, Option.map_some']
          have : i + 1 + j = i + (j + 1) := by omega
          rw [this]
        | none => simp [idxIn, hb, hidx]
    · intro id hid
      rw [List.any_map]
      rcases List.any_eq_true.mp (hall id (by simp [hid])) with ⟨t, ht, htid⟩
      refine List.any_eq_true.mpr ⟨t, ht, ?_⟩
      by_cases hcase : (t.id == tid) = true <;> simp_all [Function.comp]

theorem map_idxIn_getD (ids : List String) (hnd : ids.Nodup) :
    ids.map (fun x => (idxIn ids x).getD 0) = List.range ids.length := by
  induction ids with
  | nil => rfl
  | cons tid rest ih =>
    obtain ⟨hnotin, hndrest⟩ := List.nodup_cons.mp hnd
    simp only [List.map_cons, idxIn, beq_self_eq_true, if_true, Option.getD_some,
      List.length_cons]
    rw [List.range_succ_eq_map]
    congr 1
    rw [← ih hndrest, List.map_map]
    apply List.map_congr_left
    intro x hx
    have hxne : (x == tid) = false := by
      simpa using fun hc => hnotin (by rw [← hc]; exact hx)
    obtain ⟨j, hj⟩ := idxIn_some_of_mem hx
    simp [idxIn, hxne, hj]

theorem add_team_ok_inv {s s' : DraftState} {nm : String} {c cn : Option String}
    {tid : String} {t : Team} (h : add_team s nm c cn tid = Except.ok (s', t)) :
    s.draft.status = DraftStatus.setup ∧ t.pick_order = s.teams.length + 1 ∧
    s'.teams = s.teams ++ [t] := by
  simp only [add_team] at h
  split at h
  · cases h
  next hst =>
    injection h with hpair
    injection hpair with hs' ht
    subst hs'
    subst ht
    exact ⟨not_ne_iff.mp hst, rfl, rfl⟩

theorem remove_team_ok_inv {s s' : DraftState} {tid : String}
    (h : remove_team s tid = Except.ok s') :
    s.draft.status = DraftStatus.setup ∧
    s'.teams = s.teams.filter (fun t => !(t.id == tid)) := by
  simp only [remove_team] at h
  split at h
  · cases h
  next hst =>
    split at h
    · cases h
    next hex =>
      injection h with hs'
      subst hs'
      exact ⟨not_ne_iff.mp hst, rfl⟩

def exTeamC : Team :=
  { id := "tc", draft_id := "d1", team_name := "Team Three", coach_user_id := none,
    coach_name := none, pick_order := 3 }

/-- A setup draft with three teams holding pick orders 1, 2, 3. -/
def c9Setup : DraftState :=
  { exInit with teams := [exTeamA, exTeamB, exTeamC]
                draft := { exDraft with num_teams := 3 } }

/-- Claim C9 counterexample: removing the middle team of three leaves the
survivors with pick orders `[1, 3]` and `num_teams = 2` — not a contiguous
permutation of `1..2` — because `remove_team` never renumbers. -/
theorem remove_team_gap_cex :
    (remove_team c9Setup ("tb")).map
      (fun s => s.teams.map (fun t => t.pick_order)) = Except.ok [1, 3] ∧
    (remove_team c9Setup ("tb")).map (fun s => s.draft.num_teams) = Except.ok 2 ∧
    ¬ ([1, 3] : List Nat).Perm (List.range' 1 2) := by
  decide

/-- Claim C9 amended: `add_team` extends a contiguous `pick_order`
permutation (appending `count + 1`) and `reorder_teams` over a complete,
duplicate-free id list re-establishes `pick_order = 1..num_teams`, but
`remove_team` only deletes the team document and recounts `num_teams` —
the surviving teams keep their old `pick_order` values unchanged, so the
contiguity invariant is broken whenever the removed team did not hold the
highest `pick_order`. -/
theorem team_pick_order_maintenance :
    (∀ (s : DraftState) (nm : String) (c cn : Option String) (tid : String)
        (s' : DraftState) (t : Team),
      add_team s nm c cn tid = Except.ok (s', t) →
      List.Perm (s.teams.map (fun t => t.pick_order))
        (List.range' 1 s.teams.length) →
      List.Perm (s'.teams.map (fun t => t.pick_order))
        (List.range' 1 s'.teams.length)) ∧
    (∀ (s : DraftState) (ids : List String) (s' : DraftState),
      reorder_teams s ids = Except.ok s' → ids.Nodup →
      List.Perm ids (s.teams.map (fun t => t.id)) →
      List.Perm (s'.teams.map (fun t => t.pick_order))
        (List.range' 1 s'.teams.length)) ∧
    (∀ (s : DraftState) (tid : String) (s' : DraftState),
      remove_team s tid = Except.ok s' →
      s'.teams = s.teams.filter (fun t => !(t.id == tid))) := by
  refine ⟨?_, ?_, fun s tid s' h => (remove_team_ok_inv h).2⟩
  · intro s nm c cn tid s' t hok hperm
    obtain ⟨_, hord, hteams⟩ := add_team_ok_inv hok
    rw [hteams]
    simp only [List.map_append, List.map_cons, List.map_nil, List.length_append,
      List.length_cons, List.length_nil]
    rw [List.range'_concat]
    rw [hord]
    rw [show 1 + 1 * s.teams.length = s.teams.length + 1 from by omega]
    exact hperm.append_right [s.teams.length + 1]
  · intro s ids s' hok hnd hperm
    have hall : ∀ id ∈ ids, s.teams.any (fun t => t.id == id) = true := by
      intro id hid
      have hmem : id ∈ s.teams.map (fun t => t.id) := hperm.mem_iff.mp hid
      rcases List.mem_map.mp hmem with ⟨t, ht, hteq⟩
      exact List.any_eq_true.mpr ⟨t, ht, by simpa using hteq⟩
    have happ := applyReorderLoop_eq ids s.teams 1 hnd hall
    simp only [reorder_teams] at hok
    split at hok
    · cases hok
    next hst =>
      rw [happ] at hok
      simp only at hok
      injection hok with hs'
      subst hs'
      have hmem_ids : ∀ t ∈ s.teams, t.id ∈ ids := fun t ht =>
        hperm.mem_iff.mpr (List.mem_map.mpr ⟨t, ht, rfl⟩)
      have hmap : (s.teams.map (fun t =>
          match idxIn ids t.id with
          | some j => { t with pick_order := 1 + j }
          | none => t)).map (fun t => t.pick_order) =
          (s.teams.map (fun t => t.id)).map
            (fun x => 1 + (idxIn ids x).getD 0) := by
        rw [List.map_map, List.map_map]
        apply List.map_congr_left
        intro t ht
        obtain ⟨j, hj⟩ := idxIn_some_of_mem (hmem_ids t ht)
        simp [Function.comp, hj]
      have hids : ids.map (fun x => 1 + (idxIn ids x).getD 0) =
          List.range' 1 ids.length := by
        rw [show ids.map (fun x => 1 + (idxIn ids x).getD 0) =
            (ids.map (fun x => (idxIn ids x).getD 0)).map (fun j => 1 + j) from by
          rw [List.map_map]; rfl]
        rw [map_idxIn_getD ids hnd, List.range'_eq_map_range]
      have hlen : s.teams.length = ids.length := by
        have := hperm.length_eq
        simp only [List.length_map] at this
        omega
      simp only [List.length_map]
      rw [hmap, hlen, ← hids]
      exact hperm.symm.map (fun x => 1 + (idxIn ids x).getD 0)

/-- Claim C9 witness: the reorder branch applied at the concrete
three-team draft with a complete id list. -/
theorem team_pick_order_maintenance_witness :
    ∃ s', reorder_teams c9Setup ["tc", "ta", "tb"] = Except.ok s' ∧
      List.Perm (s'.teams.map (fun t => t.pick_order))
        (List.range' 1 s'.teams.length) := by
  cases hres : reorder_teams c9Setup ["tc", "ta", "tb"] with
  | ok s' =>
    exact ⟨s', rfl, team_pick_order_maintenance.2.1 c9Setup ["tc", "ta", "tb"] s'
      hres (by decide) (by decide)⟩
  | error e =>
    have hok : (reorder_teams c9Setup ["tc", "ta", "tb"]).map
        (fun s => s.teams.map (fun t => t.pick_order)) = Except.ok [2, 3, 1] := by
      decide
    rw [hres] at hok
    cases hok
